import Mathlib

/-!
Verification of the display abstraction and pixel-rendering engine of
`src/lcd.c` (recovery-ui).  The C code is shallowly embedded: machine
integers are modelled as `Nat`/`Int` with explicit reductions modulo `2^32`
exactly where the C performs 32-bit unsigned arithmetic, `off_t` division is
the C truncating division (`Int.tdiv`/`Int.tmod`), pixel and background
buffers are byte-addressed functions `Nat → Nat`, and `abort()` is the `none`
branch of an `Option` result.
-/

namespace RecoveryUi

/-- Reduction of a C expression to 32-bit unsigned: the value an `unsigned int`
holds after converting / wrapping a (possibly negative) integer. -/
def u32 (n : Int) : Nat := (n % 2 ^ 32).toNat

/-- Wrap of a nonnegative quantity into `unsigned int` range. -/
def u32n (n : Nat) : Nat := n % 2 ^ 32

/-- One colour channel of the pixel-format descriptor (`struct color`):
bit offset and bit width. -/
structure ColorChan where
  offset : Nat
  size : Nat
deriving DecidableEq, Repr

/-- The display handle (`struct lcd`).  `data` and `background` are the pixel
and background buffers, byte addressed; `logo` is the selected logo asset
(`[]` models a NULL `logo` pointer); cursor coordinates are C `int`s. -/
structure Lcd where
  width : Nat
  height : Nat
  bpp : Nat
  stride : Nat
  size : Nat
  x : Int
  y : Int
  data : Nat → Nat
  background : Nat → Nat
  fgcolor : Nat
  flags : Nat
  mapped : Bool
  byteswap : Bool
  alpha : ColorChan
  red : ColorChan
  green : ColorChan
  blue : ColorChan
  logo : List Nat
  logoSize : Nat

/-- `lcd_scale_factor`. -/
def lcd_scale_factor (lcd : Lcd) : Nat := 1 + (lcd.height + 120) / 240

/-- `lcd_font_width`. -/
def lcd_font_width (lcd : Lcd) : Nat := 6 * lcd_scale_factor lcd

/-- `lcd_font_height`. -/
def lcd_font_height (lcd : Lcd) : Nat := 8 * lcd_scale_factor lcd

/-- `lcd_x`: physical x under the `LCD_REVERSE_X` flag (bit 0). -/
def lcd_x (lcd : Lcd) : Int :=
  if lcd.flags.testBit 0 then (lcd.width : Int) - lcd.x - 1 else lcd.x

/-- `lcd_y`: physical y under the `LCD_REVERSE_Y` flag (bit 1). -/
def lcd_y (lcd : Lcd) : Int :=
  if lcd.flags.testBit 1 then (lcd.height : Int) - lcd.y - 1 else lcd.y

/-- `lcd_valid_pos`: the cursor validity check. -/
def lcd_valid_pos (lcd : Lcd) : Prop :=
  0 ≤ lcd.x ∧ lcd.x < (lcd.width : Int) ∧ 0 ≤ lcd.y ∧ lcd.y < (lcd.height : Int)

instance (lcd : Lcd) : Decidable (lcd_valid_pos lcd) := by
  unfold lcd_valid_pos; infer_instance

/-- `lcd_move_cursor`: logical cursor move, axes swapped under
`LCD_INV_AXIS` (bit 2). -/
def lcd_move_cursor (lcd : Lcd) (cols rows : Int) : Lcd :=
  if lcd.flags.testBit 2 then { lcd with x := lcd.x + rows, y := lcd.y + cols }
  else { lcd with x := lcd.x + cols, y := lcd.y + rows }

/-- `lcd_set_x`. -/
def lcd_set_x (lcd : Lcd) (x : Int) : Lcd :=
  if lcd.flags.testBit 2 then { lcd with y := x } else { lcd with x := x }

/-- `lcd_set_y`. -/
def lcd_set_y (lcd : Lcd) (y : Int) : Lcd :=
  if lcd.flags.testBit 2 then { lcd with x := y } else { lcd with y := y }

/-- `lcd_seek`.  `whence`: 0 = `SEEK_SET`, 1 = `SEEK_CUR`, 2 = `SEEK_END`.
`off_t` arithmetic is 64-bit signed (exact `Int` with truncating division);
the cursor-to-pixel sum `lcd->y * lcd->width + lcd->x` and the returned
byte-offset expression are computed in C `unsigned int` arithmetic, hence
the `u32` reductions. -/
def lcd_seek (lcd : Lcd) (offset : Int) (whence : Nat) : Lcd × Int :=
  let pixels0 : Int := (offset * 8).tdiv (lcd.bpp : Int)
  let l1 : Lcd :=
    if whence = 0 then { lcd with x := 0, y := 0 }
    else if whence = 2 then { lcd with x := 0, y := (lcd.height : Int) }
    else lcd
  let pixels : Int := pixels0 + (u32 ((u32 (l1.y * (l1.width : Int)) : Int) + l1.x) : Int)
  let x2 : Int := pixels.tmod (l1.width : Int)
  let y2 : Int := pixels.tdiv (l1.width : Int)
  let l2 : Lcd := { l1 with x := x2, y := y2 }
  (l2, (u32n (u32 ((l2.stride : Int) * y2) + u32 (x2 * (l2.bpp : Int)) / 8) : Int))

/-- `lcd_update`.  The device write is external: `ret` is the value returned
by `write(2)`.  `assert(ret == (ssize_t)lcd->size)` aborts (`none`) whenever
the write errored or was short, before the explicit error checks below it can
run. -/
def lcd_update (lcd : Lcd) (ret : Int) : Option (Lcd × Bool) :=
  if lcd.mapped then some (lcd, true)
  else if ret ≠ (lcd.size : Int) then none
  else if ret < 0 then some (lcd, false)
  else if ret.toNat ≠ lcd.size then some (lcd, false)
  else some (lcd, true)

/-- One `memcpy(dst + off, src + off, len)` at identical offsets in both
buffers, as performed by each row copy of `lcd_blit`. -/
def copyRow (dst src : Nat → Nat) (off len : Nat) : Nat → Nat :=
  fun j => if off ≤ j ∧ j < off + len then src j else dst j

/-- The row loop of `lcd_blit`: `n` rows starting at row `y`, each row
copying `len` bytes at byte offset `stride * row + xoff`. -/
def blitRows (stride : Nat) (src : Nat → Nat) (xoff len : Nat) :
    Nat → Nat → (Nat → Nat) → (Nat → Nat)
  | _, 0, dst => dst
  | y, n + 1, dst =>
      blitRows stride src xoff len (y + 1) n (copyRow dst src (stride * y + xoff) len)

/-- A blit rectangle (`struct lcd_rect`): `int` position, `unsigned int`
extent. -/
structure LcdRect where
  x : Int
  y : Int
  width : Nat
  height : Nat

/-- Conversion of an `unsigned int` value back to `int` as gcc implements it
(two's-complement wrap), used when a reverse-transformed coordinate is stored
back into the `int` rectangle fields. -/
def s32 (n : Nat) : Int := if n < 2 ^ 31 then (n : Int) else (n : Int) - 2 ^ 32

/-- `lcd_blit`: reverse-transform, clip (all in C `int`/`unsigned int`
arithmetic, with its wraparound), then copy the surviving rows from `src`
into `dst`.  Returns the new contents of `dst`. -/
def lcd_blit (lcd : Lcd) (dst src : Nat → Nat) (r : LcdRect) : Nat → Nat :=
  let x1 : Int :=
    if lcd.flags.testBit 0 then s32 (u32 ((lcd.width : Int) - r.x - (r.width : Int)))
    else r.x
  let y1 : Int :=
    if lcd.flags.testBit 1 then s32 (u32 ((lcd.height : Int) - r.y - (r.height : Int)))
    else r.y
  let w1 : Nat := if x1 < 0 then u32 ((r.width : Int) + x1) else r.width
  let x2 : Int := if x1 < 0 then 0 else x1
  let h1 : Nat := if y1 < 0 then u32 ((r.height : Int) + y1) else r.height
  let y2 : Int := if y1 < 0 then 0 else y1
  let w2 : Nat := if lcd.width < u32 (x2 + (w1 : Int)) then u32 ((lcd.width : Int) - x2) else w1
  let h2 : Nat := if lcd.height < u32 (y2 + (h1 : Int)) then u32 ((lcd.height : Int) - y2) else h1
  if w2 = 0 then dst
  else
    let yStart : Nat := y2.toNat
    let yEnd : Nat := u32 (y2 + (h2 : Int))
    blitRows lcd.stride src (u32 (x2 * (lcd.bpp : Int)) / 8) (u32n (w2 * lcd.bpp) / 8)
      yStart (yEnd - yStart) dst

/-- `lcd_clear`: build the rectangle (cursor row across the full width, or
cursor column across the full height under `LCD_INV_AXIS`) and blit the
background over the pixel buffer. -/
def lcd_clear (lcd : Lcd) (lines : Nat) : Lcd :=
  let r : LcdRect :=
    if lcd.flags.testBit 2 then ⟨lcd.x, 0, lines, lcd.height⟩
    else ⟨0, lcd.y, lcd.width, lines⟩
  { lcd with data := lcd_blit lcd lcd.data lcd.background r }

/-- `lcd_write`: seek to the cursor's byte offset, clamp the count to the
buffer end in `size_t` arithmetic, then `memcpy` into the pixel buffer.
Returns the updated handle and the `ssize_t` result. -/
def lcd_write (lcd : Lcd) (buf : List Nat) (count0 : Nat) : Lcd × Int :=
  let p := lcd_seek lcd 0 1
  let l1 := p.1
  let off : Nat := p.2.toNat
  let count : Nat :=
    if l1.size < off + count0 then ((((l1.size : Int) - (off : Int)) % (2 ^ 64)).toNat)
    else count0
  if count < 2 ^ 63 then
    ({ l1 with data := fun j => if off ≤ j ∧ j < off + count then buf.getD (j - off) 0 else l1.data j },
     (count : Int))
  else (l1, -1)

/-- `lcd_save_background`: `memcpy(lcd->background, lcd->data, lcd->size)`. -/
def lcd_save_background (lcd : Lcd) : Lcd :=
  { lcd with background := fun j => if j < lcd.size then lcd.data j else lcd.background j }

/-- glibc `bswap_16`: byte swap of the low 16 bits. -/
def bswap16 (x : Nat) : Nat := ((x % 65536) >>> 8) ||| ((x &&& 255) <<< 8)

/-- `lcd_set_fgcolor`: pack the four 8-bit ARGB components into the device's
native layout, byte-swapping for swapped 16-bit panels.  (All channel sizes
this driver constructs are at most 8, so `8 - size` never goes negative.) -/
def lcd_set_fgcolor (lcd : Lcd) (argb : Nat) : Lcd :=
  let a := ((argb >>> 24) &&& 255) >>> (8 - lcd.alpha.size)
  let r := ((argb >>> 16) &&& 255) >>> (8 - lcd.red.size)
  let g := ((argb >>> 8) &&& 255) >>> (8 - lcd.green.size)
  let b := ((argb >>> 0) &&& 255) >>> (8 - lcd.blue.size)
  let fg := u32n (a <<< lcd.alpha.offset) ||| u32n (r <<< lcd.red.offset) |||
            u32n (g <<< lcd.green.offset) ||| u32n (b <<< lcd.blue.offset)
  let fg := if lcd.byteswap ∧ lcd.bpp = 16 then bswap16 fg else fg
  { lcd with fgcolor := fg }

/-- One pixel write of `lcd_putc_4bpp`: set or clear one 4-bit nibble, chosen
by the physical x parity, when the cursor position is valid. -/
def putcPixel4 (lcd : Lcd) (isOn : Bool) : Lcd :=
  if lcd_valid_pos lcd then
    let mask : Nat := if (lcd_x lcd).toNat % 2 = 1 then 15 else 240
    let idx : Nat := (lcd_y lcd).toNat * lcd.stride + (lcd_x lcd).toNat * lcd.bpp / 8
    { lcd with data := fun j =>
        if j = idx then (if isOn then lcd.data idx ||| mask else lcd.data idx &&& (mask ^^^ 255))
        else lcd.data j }
  else lcd

/-- One pixel write of `lcd_putc_16bpp`: store the foreground colour or the
background pixel as a little-endian 16-bit element. -/
def putcPixel16 (lcd : Lcd) (isOn : Bool) : Lcd :=
  if lcd_valid_pos lcd then
    let idx : Nat := (lcd_y lcd).toNat * lcd.stride + (lcd_x lcd).toNat * lcd.bpp / 8
    let e : Nat := 2 * (idx / 2)
    let v : Nat := if isOn then lcd.fgcolor else lcd.background e + 256 * lcd.background (e + 1)
    { lcd with data := fun j =>
        if j = e then v % 256 else if j = e + 1 then v / 256 % 256 else lcd.data j }
  else lcd

/-- One pixel write of `lcd_putc_32bpp`: store the foreground colour or the
background pixel as a little-endian 32-bit element. -/
def putcPixel32 (lcd : Lcd) (isOn : Bool) : Lcd :=
  if lcd_valid_pos lcd then
    let idx : Nat := (lcd_y lcd).toNat * lcd.stride + (lcd_x lcd).toNat * lcd.bpp / 8
    let e : Nat := 4 * (idx / 4)
    let v : Nat := if isOn then lcd.fgcolor
      else lcd.background e + 256 * lcd.background (e + 1) +
           65536 * lcd.background (e + 2) + 16777216 * lcd.background (e + 3)
    { lcd with data := fun j =>
        if j = e then v % 256 else if j = e + 1 then v / 256 % 256
        else if j = e + 2 then v / 65536 % 256 else if j = e + 3 then v / 16777216 % 256
        else lcd.data j }
  else lcd

/-- The inner row loop shared by the three `lcd_putc_*bpp` variants: `k`
remaining rows, `r` the current row counter; each step draws the pixel for
row `r` and moves the cursor one logical row down. -/
def putcRows (pix : Lcd → Bool → Lcd) (bit : Nat → Bool) :
    Nat → Nat → Lcd → Lcd
  | 0, _, lcd => lcd
  | k + 1, r, lcd => putcRows pix bit k (r + 1) (lcd_move_cursor (pix lcd (bit r)) 0 1)

/-- The outer column loop shared by the three `lcd_putc_*bpp` variants: `n`
remaining columns starting at font index `fi`; after each column the cursor
moves back up `fh` rows and right one column. -/
def putcCols (pix : Lcd → Bool → Lcd) (colBit : Nat → Nat → Bool) (fh : Nat) :
    Nat → Nat → Lcd → Lcd
  | 0, _, lcd => lcd
  | n + 1, fi, lcd =>
      putcCols pix colBit fh n (fi + 1)
        (lcd_move_cursor (lcd_move_cursor (putcRows pix (colBit fi) fh 0 lcd) 0 (-(fh : Int))) 1 0)

/-- `lcd_putc_4bpp`.  The font bitmap `lcdfont` (from `lcdfont.h`, not part of
`src/`) is a parameter: `font i` is the byte `lcdfont[i]`. -/
def lcd_putc_4bpp (font : Nat → Nat) (lcd : Lcd) (c : Nat) : Lcd :=
  putcCols putcPixel4 (fun fi r => (font fi).testBit r)
    (lcd_font_height lcd) (lcd_font_width lcd) (c * lcd_font_width lcd) lcd

/-- `lcd_putc_16bpp`. -/
def lcd_putc_16bpp (font : Nat → Nat) (lcd : Lcd) (c : Nat) : Lcd :=
  putcCols putcPixel16
    (fun fi r => (font (fi / lcd_scale_factor lcd)).testBit (r / lcd_scale_factor lcd))
    (lcd_font_height lcd) (lcd_font_width lcd) (c * lcd_font_width lcd) lcd

/-- `lcd_putc_32bpp`. -/
def lcd_putc_32bpp (font : Nat → Nat) (lcd : Lcd) (c : Nat) : Lcd :=
  putcCols putcPixel32
    (fun fi r => (font (fi / lcd_scale_factor lcd)).testBit (r / lcd_scale_factor lcd))
    (lcd_font_height lcd) (lcd_font_width lcd) (c * lcd_font_width lcd) lcd

/-- `lcd_putc`: dispatch on bits-per-pixel; any other depth is `abort()`
(`none`). -/
def lcd_putc (font : Nat → Nat) (lcd : Lcd) (c : Nat) : Option Lcd :=
  if lcd.bpp = 4 then some (lcd_putc_4bpp font lcd c)
  else if lcd.bpp = 16 then some (lcd_putc_16bpp font lcd c)
  else if lcd.bpp = 32 then some (lcd_putc_32bpp font lcd c)
  else none

/-- `lcd_puts`: the string is the list of its bytes up to the terminator. -/
def lcd_puts (font : Nat → Nat) (lcd : Lcd) : List Nat → Option Lcd
  | [] => some lcd
  | c :: rest => (lcd_putc font lcd c).bind (fun l => lcd_puts font l rest)

/-- Expansion of a monochrome logo row buffer into native pixel values:
each source bit becomes `s` copies of the foreground colour or 0
(the `wptr` fill loop of `lcd_write_logo`). -/
def logoPixels (logo : List Nat) (fg s : Nat) : List Nat :=
  logo.flatMap (fun byte =>
    (List.range 8).flatMap (fun j =>
      List.replicate s (if byte.testBit (7 - j) then fg else 0)))

/-- Little-endian byte image of a list of 16-bit stores. -/
def bytes16 (ws : List Nat) : List Nat := ws.flatMap (fun v => [v % 256, v / 256 % 256])

/-- Little-endian byte image of a list of 32-bit stores. -/
def bytes32 (ws : List Nat) : List Nat :=
  ws.flatMap (fun v => [v % 256, v / 256 % 256, v / 65536 % 256, v / 16777216 % 256])

/-- `lcd_write_logo`.  The result is an `Option` so that an `abort()` could be
modelled as `none`: the C function contains no abort path, so `none` is never
returned — depths other than the scaled 16-bit and 32-bit cases fall through
to the verbatim streaming path. -/
def lcd_write_logo (lcd : Lcd) : Option Lcd :=
  if lcd.logo = [] ∨ lcd.logoSize = 0 then some lcd
  else if lcd.bpp = 16 ∧ ¬(lcd.width = 400 ∧ lcd.height = 240) then
    let s := lcd_scale_factor lcd
    let bytes := bytes16 (logoPixels lcd.logo lcd.fgcolor s)
    some ((List.range 7).foldl (fun l i =>
      (List.range s).foldl (fun l2 _ =>
        let w := lcd_write l2 (bytes.drop (i * 96 * 2 * s)) (96 * 2 * s)
        (lcd_seek w.1 (w.1.stride : Int) 1).1) l) lcd)
  else if lcd.bpp = 32 then
    let s := lcd_scale_factor lcd
    let bytes := bytes32 (logoPixels lcd.logo lcd.fgcolor s)
    some ((List.range 7).foldl (fun l i =>
      (List.range s).foldl (fun l2 _ =>
        let w := lcd_write l2 (bytes.drop (i * 96 * 4 * s)) (96 * 4 * s)
        (lcd_seek w.1 (w.1.stride : Int) 1).1) l) lcd)
  else
    some (lcd_write lcd lcd.logo lcd.logoSize).1

/-- The logo assets `display_open` can select. -/
inductive LogoAsset where
  | gray4_128x8
  | rgb565_400x240
  | mono_96x7
deriving DecidableEq, Repr

/-- The logo-selection logic of `display_open`: `none` when no asset matches
the geometry (the `lcd->logo` pointer stays NULL). -/
def display_select_logo (w h bpp : Nat) : Option LogoAsset :=
  if w = 128 ∧ bpp = 4 then some LogoAsset.gray4_128x8
  else if w = 400 ∧ h = 240 ∧ bpp = 16 then some LogoAsset.rgb565_400x240
  else if h ≤ w then some LogoAsset.mono_96x7
  else none

/-- `lcd_get_logo_size`: returns the reported logo dimensions. -/
def lcd_get_logo_size (lcd : Lcd) : Nat × Nat :=
  if lcd.bpp = 4 then (128, 8)
  else if lcd.width = 400 ∧ lcd.height = 240 ∧ lcd.bpp = 16 then (400, 240)
  else if 16 ≤ lcd.bpp then (96 * lcd_scale_factor lcd, 7 * lcd_scale_factor lcd)
  else (0, 0)

/-- Modelled from the spec: the clipping rule of the Background/Clear Engine
(spec §4.5) read with exact integer arithmetic — shrink from the negative
side first, then from the overflowing side; the spec calls a zero or negative
resulting height a no-op.  This is the spec's reading, to be compared with
the C `unsigned int` computation in `lcd_blit`. -/
def spec_clipped_height (H y h : Int) : Int :=
  let h1 := if y < 0 then h + y else h
  let y1 := if y < 0 then 0 else y
  if y1 + h1 > H then H - y1 else h1

/-- Decoding one channel back out of a packed native colour value via the
descriptor's offset and width, as the claim prescribes. -/
def chan_decode (v : Nat) (c : ColorChan) : Nat := (v >>> c.offset) &&& (2 ^ c.size - 1)

/-- Two channels of a pixel-format descriptor occupy disjoint bit ranges. -/
def ChanDisjoint (c d : ColorChan) : Prop :=
  c.offset + c.size ≤ d.offset ∨ d.offset + d.size ≤ c.offset

instance (c d : ColorChan) : Decidable (ChanDisjoint c d) := by
  unfold ChanDisjoint; infer_instance

/-- The facts about a per-pixel write `pix` (one of `putcPixel4/16/32`) that
the shared glyph loops rely on: it moves no cursor, changes no field but the
pixel buffer, and on an untransformed display of geometry `W × H`, stride
`S`, depth `B` it writes only when the cursor is valid, and then only inside
the first `W * B / 8` bytes of the cursor's row. -/
structure PixOk (pix : Lcd → Bool → Lcd) (W H S B : Nat) : Prop where
  x_eq : ∀ l b, (pix l b).x = l.x
  y_eq : ∀ l b, (pix l b).y = l.y
  width_eq : ∀ l b, (pix l b).width = l.width
  height_eq : ∀ l b, (pix l b).height = l.height
  stride_eq : ∀ l b, (pix l b).stride = l.stride
  bpp_eq : ∀ l b, (pix l b).bpp = l.bpp
  flags_eq : ∀ l b, (pix l b).flags = l.flags
  bg_eq : ∀ l b, (pix l b).background = l.background
  data_sub : ∀ l b j, l.width = W → l.height = H → l.stride = S → l.bpp = B → l.flags = 0 →
    (pix l b).data j ≠ l.data j →
    0 ≤ l.y ∧ l.y < (H : Int) ∧ S * l.y.toNat ≤ j ∧ j < S * l.y.toNat + W * B / 8

/-! ### Concrete displays used as test vectors -/

/-- The default character OLED of `stb_lcd_open`: 128×64 at 4 bpp,
stride 64, buffer 4096 bytes, zero-initialized buffers. -/
def baseLcd : Lcd where
  width := 128
  height := 64
  bpp := 4
  stride := 64
  size := 4096
  x := 0
  y := 0
  data := fun _ => 0
  background := fun _ => 0
  fgcolor := 4294967295
  flags := 0
  mapped := false
  byteswap := false
  alpha := ⟨0, 0⟩
  red := ⟨0, 0⟩
  green := ⟨0, 0⟩
  blue := ⟨0, 0⟩
  logo := []
  logoSize := 0

/-- A portrait 64×128 display at 4 bpp: no logo asset matches it. -/
def lcdPortrait4 : Lcd :=
  { baseLcd with width := 64, height := 128, stride := 32, size := 4096 }

/-- A portrait 64×128 display at 8 bpp: no logo asset matches it. -/
def lcdPortrait8 : Lcd :=
  { baseLcd with width := 64, height := 128, bpp := 8, stride := 64, size := 8192 }

/-- An 8-bpp display carrying a one-byte logo: a depth the logo writer does
not recognize. -/
def lcd8bpp : Lcd :=
  { baseLcd with bpp := 8, stride := 128, size := 8192, logo := [7], logoSize := 1 }

/-- An all-zero font table, usable wherever a glyph bitmap is irrelevant. -/
def font0 : Nat → Nat := fun _ => 0

/-- The 100×64 4-bpp display of the `SEEK_END` scenario (stride 50,
buffer 3200 bytes). -/
def lcd100x64 : Lcd := { baseLcd with width := 100, stride := 50, size := 3200 }

/-- The default OLED with its cursor moved to the odd column 1 via
`lcd_set_x`. -/
def oledOddX : Lcd := lcd_set_x baseLcd 1

/-- A 400×240 16-bpp panel with the byte-swapped RGB565 colour format
(`colorformat` reporting `RGB_565_B`). -/
def lcdSwap : Lcd :=
  { baseLcd with
    width := 400, height := 240, bpp := 16, stride := 800, size := 192000,
    byteswap := true, alpha := ⟨0, 0⟩, red := ⟨11, 5⟩, green := ⟨5, 6⟩, blue := ⟨0, 5⟩ }

/-- The same panel without the byte swap. -/
def lcdNoSwap : Lcd := { lcdSwap with byteswap := false }

/-- The default OLED with an all-ones pixel buffer and the cursor 10 rows
above the top of the display. -/
def lcdNegY : Lcd := { baseLcd with y := -10, data := fun _ => 1 }

/-- A tiny 2×2 display at 4 bpp (stride 1, 2-byte buffer) whose background
equals its pixel buffer. -/
def tinyLcd : Lcd := { baseLcd with width := 2, height := 2, stride := 1, size := 2 }

/-! ### Background-buffer preservation lemmas -/

theorem putcPixel4_background (l : Lcd) (b : Bool) :
    (putcPixel4 l b).background = l.background := by
  unfold putcPixel4; split <;> rfl

theorem putcPixel16_background (l : Lcd) (b : Bool) :
    (putcPixel16 l b).background = l.background := by
  unfold putcPixel16; split <;> rfl

theorem putcPixel32_background (l : Lcd) (b : Bool) :
    (putcPixel32 l b).background = l.background := by
  unfold putcPixel32; split <;> rfl

theorem lcd_move_cursor_background (l : Lcd) (c r : Int) :
    (lcd_move_cursor l c r).background = l.background := by
  unfold lcd_move_cursor; split <;> rfl

theorem putcRows_background (pix : Lcd → Bool → Lcd) (bit : Nat → Bool)
    (hbg : ∀ l b, (pix l b).background = l.background) :
    ∀ (k r : Nat) (l : Lcd), (putcRows pix bit k r l).background = l.background := by
  intro k
  induction k with
  | zero => intro r l; rfl
  | succ k ih =>
    intro r l
    rw [putcRows, ih, lcd_move_cursor_background, hbg]

theorem putcCols_background (pix : Lcd → Bool → Lcd) (colBit : Nat → Nat → Bool) (fh : Nat)
    (hbg : ∀ l b, (pix l b).background = l.background) :
    ∀ (n fi : Nat) (l : Lcd), (putcCols pix colBit fh n fi l).background = l.background := by
  intro n
  induction n with
  | zero => intro fi l; rfl
  | succ n ih =>
    intro fi l
    rw [putcCols, ih, lcd_move_cursor_background, lcd_move_cursor_background,
      putcRows_background pix (colBit fi) hbg]

theorem lcd_seek_background (lcd : Lcd) (offset : Int) (whence : Nat) :
    (lcd_seek lcd offset whence).1.background = lcd.background := by
  unfold lcd_seek
  split_ifs <;> rfl

theorem lcd_write_background (lcd : Lcd) (buf : List Nat) (n : Nat) :
    (lcd_write lcd buf n).1.background = lcd.background := by
  unfold lcd_write
  dsimp only
  split <;> split <;> exact lcd_seek_background lcd 0 1

theorem lcd_putc_background (font : Nat → Nat) (lcd : Lcd) (c : Nat) :
    ((lcd_putc font lcd c).getD lcd).background = lcd.background := by
  unfold lcd_putc
  split_ifs <;>
    simp only [Option.getD_some, Option.getD_none, lcd_putc_4bpp, lcd_putc_16bpp, lcd_putc_32bpp]
  · exact putcCols_background _ _ _ putcPixel4_background _ _ _
  · exact putcCols_background _ _ _ putcPixel16_background _ _ _
  · exact putcCols_background _ _ _ putcPixel32_background _ _ _

theorem lcd_puts_background (font : Nat → Nat) :
    ∀ (s : List Nat) (lcd : Lcd), ((lcd_puts font lcd s).getD lcd).background = lcd.background := by
  intro s
  induction s with
  | nil => intro lcd; rfl
  | cons c rest ih =>
    intro lcd
    unfold lcd_puts
    cases h : lcd_putc font lcd c with
    | none => rfl
    | some l2 =>
      have hbg : l2.background = lcd.background := by
        have h2 := lcd_putc_background font lcd c
        rw [h] at h2
        simpa using h2
      have h3 := ih l2
      cases h4 : lcd_puts font l2 rest with
      | none => simp [Option.bind, h4]
      | some l3 =>
        rw [h4] at h3
        simp only [Option.getD_some] at h3
        simp [Option.bind, h4, h3, hbg]

theorem foldl_background {α : Type} (f : Lcd → α → Lcd)
    (h : ∀ l a, (f l a).background = l.background) :
    ∀ (xs : List α) (l : Lcd), (xs.foldl f l).background = l.background := by
  intro xs
  induction xs with
  | nil => intro l; rfl
  | cons a rest ih => intro l; rw [List.foldl_cons, ih, h]

theorem lcd_write_logo_background (lcd : Lcd) :
    ((lcd_write_logo lcd).getD lcd).background = lcd.background := by
  unfold lcd_write_logo
  split_ifs <;> simp only [Option.getD_some]
  · exact foldl_background _ (fun l i => foldl_background _
      (fun l2 _ => by rw [lcd_seek_background, lcd_write_background]) _ l) _ _
  · exact foldl_background _ (fun l i => foldl_background _
      (fun l2 _ => by rw [lcd_seek_background, lcd_write_background]) _ l) _ _
  · exact lcd_write_background _ _ _

/-! ### Claim C10 -/

/-- C10: the background buffer is modified only by `lcd_save_background`
(which copies the live pixel buffer into it, byte for byte over the buffer
size); drawing a character or a string, clearing, seeking, setting the
foreground colour, writing the logo and updating all leave every byte of the
background buffer unchanged. -/
theorem c10_background_only_written_by_save :
    (∀ (font : Nat → Nat) (lcd : Lcd) (c : Nat),
      ((lcd_putc font lcd c).getD lcd).background = lcd.background) ∧
    (∀ (font : Nat → Nat) (lcd : Lcd) (s : List Nat),
      ((lcd_puts font lcd s).getD lcd).background = lcd.background) ∧
    (∀ (lcd : Lcd) (lines : Nat), (lcd_clear lcd lines).background = lcd.background) ∧
    (∀ (lcd : Lcd) (offset : Int) (whence : Nat),
      (lcd_seek lcd offset whence).1.background = lcd.background) ∧
    (∀ (lcd : Lcd) (argb : Nat), (lcd_set_fgcolor lcd argb).background = lcd.background) ∧
    (∀ lcd : Lcd, ((lcd_write_logo lcd).getD lcd).background = lcd.background) ∧
    (∀ (lcd : Lcd) (ret : Int),
      ((lcd_update lcd ret).getD (lcd, true)).1.background = lcd.background) ∧
    (∀ (lcd : Lcd) (j : Nat),
      (lcd_save_background lcd).background j =
        if j < lcd.size then lcd.data j else lcd.background j) := by
  refine ⟨fun font lcd c => lcd_putc_background font lcd c,
    fun font lcd s => lcd_puts_background font s lcd,
    fun lcd lines => rfl,
    fun lcd offset whence => lcd_seek_background lcd offset whence,
    fun lcd argb => rfl,
    fun lcd => lcd_write_logo_background lcd,
    fun lcd ret => ?_,
    fun lcd j => rfl⟩
  unfold lcd_update
  split_ifs <;> rfl

/-! ### Claim C8 -/

/-- C8: on an unmapped display `lcd_update` does not return `false` on a
failed or short write as the claim states: the `assert(ret == (ssize_t)
lcd->size)` placed before the error checks aborts the process (`none`) for
every erroring (`ret = -1`) or short (`ret = 100 < 4096`) write, making the
`return false` branches dead code; only a full write returns, with `true`,
and a mapped display performs no write and returns `true` unchanged. -/
theorem c8_update_asserts_before_error_checks :
    lcd_update baseLcd (-1) = none ∧
    lcd_update baseLcd 100 = none ∧
    lcd_update baseLcd 4096 = some (baseLcd, true) ∧
    lcd_update { baseLcd with mapped := true } (-1) =
      some ({ baseLcd with mapped := true }, true) := by
  refine ⟨rfl, rfl, ?_, rfl⟩
  unfold lcd_update baseLcd
  norm_num
  rfl

/-! ### Claim C7 -/

/-- C7 counterexample: a portrait 64×128 display at 4 bpp matches no logo
asset at open time, yet `lcd_get_logo_size` reports (128, 8), not (0, 0). -/
theorem c7_counterexample_portrait_4bpp :
    display_select_logo lcdPortrait4.width lcdPortrait4.height lcdPortrait4.bpp = none ∧
    lcd_get_logo_size lcdPortrait4 = (128, 8) ∧ (128, 8) ≠ ((0 : Nat), (0 : Nat)) := by
  refine ⟨?_, rfl, by decide⟩
  unfold display_select_logo lcdPortrait4 baseLcd
  norm_num

/-- C7 (amended): `lcd_get_logo_size` never aborts, and on a display whose
geometry matched no logo asset at open time it returns (0, 0) exactly when
the depth is neither 4 bpp nor at least 16 bpp; a logo-less 4-bpp display
reports (128, 8) and a logo-less display of depth ≥ 16 reports the scaled
mono logo size (96·scale, 7·scale). -/
theorem c7_logo_size_when_no_logo (lcd : Lcd)
    (h : display_select_logo lcd.width lcd.height lcd.bpp = none) :
    lcd_get_logo_size lcd =
      if lcd.bpp = 4 then (128, 8)
      else if 16 ≤ lcd.bpp then (96 * lcd_scale_factor lcd, 7 * lcd_scale_factor lcd)
      else (0, 0) := by
  unfold display_select_logo at h
  unfold lcd_get_logo_size
  split_ifs at h ⊢ <;> simp_all

/-- C7 witness: the amended statement evaluated on a logo-less portrait
8-bpp display, which indeed reports (0, 0). -/
theorem c7_witness :
    display_select_logo lcdPortrait8.width lcdPortrait8.height lcdPortrait8.bpp = none ∧
    lcd_get_logo_size lcdPortrait8 =
      (if lcdPortrait8.bpp = 4 then (128, 8)
       else if 16 ≤ lcdPortrait8.bpp then
         (96 * lcd_scale_factor lcdPortrait8, 7 * lcd_scale_factor lcdPortrait8)
       else (0, 0)) := by
  have h : display_select_logo lcdPortrait8.width lcdPortrait8.height lcdPortrait8.bpp = none := by
    unfold display_select_logo lcdPortrait8 baseLcd
    norm_num
  exact ⟨h, c7_logo_size_when_no_logo lcdPortrait8 h⟩

/-! ### Claim C9 -/

/-- C9 counterexample: an 8-bpp display with a selected logo reaches the logo
writer with an unrecognized depth, and instead of aborting it silently falls
through to the verbatim streaming path and draws: the first buffer byte
becomes the first logo byte. -/
theorem c9_counterexample_8bpp_logo_no_abort :
    (lcd_write_logo lcd8bpp).isSome = true ∧
    ((lcd_write_logo lcd8bpp).getD lcd8bpp).data 0 = 7 ∧ lcd8bpp.data 0 = 0 := by
  refine ⟨?_, ?_, rfl⟩ <;> decide

/-- C9 (amended): a bits-per-pixel value outside {4, 16, 32} reaching
`lcd_putc` aborts the process (`none`); `lcd_write_logo`, however, contains
no abort path at all — it always returns, and any depth other than the
scaled 16-bpp and 32-bpp cases falls through to the verbatim streaming path
rather than aborting. -/
theorem c9_putc_aborts_logo_writer_does_not :
    (∀ (font : Nat → Nat) (lcd : Lcd) (c : Nat),
      ¬(lcd.bpp = 4 ∨ lcd.bpp = 16 ∨ lcd.bpp = 32) → lcd_putc font lcd c = none) ∧
    (∀ lcd : Lcd, (lcd_write_logo lcd).isSome = true) ∧
    (∀ lcd : Lcd, ¬(lcd.logo = [] ∨ lcd.logoSize = 0) →
      ¬(lcd.bpp = 16 ∧ ¬(lcd.width = 400 ∧ lcd.height = 240)) → lcd.bpp ≠ 32 →
      lcd_write_logo lcd = some (lcd_write lcd lcd.logo lcd.logoSize).1) := by
  refine ⟨fun font lcd c h => ?_, fun lcd => ?_, fun lcd h1 h2 h3 => ?_⟩
  · unfold lcd_putc
    split_ifs with h4 h5 h6 <;> tauto
  · unfold lcd_write_logo
    split_ifs with h4 h5 h6
    · rfl
    · rfl
    · rfl
    · rfl
  · unfold lcd_write_logo
    split_ifs
    tauto

/-- C9 witness: the amended statement evaluated on the 8-bpp display with a
logo: `lcd_putc` aborts there, and `lcd_write_logo` takes the verbatim
path. -/
theorem c9_witness :
    (¬(lcd8bpp.bpp = 4 ∨ lcd8bpp.bpp = 16 ∨ lcd8bpp.bpp = 32) ∧
      lcd_putc font0 lcd8bpp 65 = none) ∧
    (lcd_write_logo lcd8bpp).isSome = true ∧
    (¬(lcd8bpp.logo = [] ∨ lcd8bpp.logoSize = 0) ∧
      lcd_write_logo lcd8bpp = some (lcd_write lcd8bpp lcd8bpp.logo lcd8bpp.logoSize).1) := by
  refine ⟨⟨by decide, c9_putc_aborts_logo_writer_does_not.1 font0 lcd8bpp 65 (by decide)⟩,
    c9_putc_aborts_logo_writer_does_not.2.1 lcd8bpp,
    ⟨by decide, c9_putc_aborts_logo_writer_does_not.2.2 lcd8bpp (by decide) (by decide)
      (by decide)⟩⟩

/-! ### Unsigned-wrap elimination helpers -/

theorem u32_int_eq {n : Int} (h0 : 0 ≤ n) (h1 : n < 2 ^ 32) : (u32 n : Int) = n := by
  unfold u32
  rw [Int.toNat_of_nonneg (Int.emod_nonneg n (by norm_num)), Int.emod_eq_of_lt h0 h1]

theorem u32_natCast (k : Nat) : u32 (k : Int) = k % 2 ^ 32 := by
  unfold u32
  have h : ((k : Int) % 2 ^ 32) = ((k % 2 ^ 32 : Nat) : Int) := by push_cast; ring_nf
  rw [h, Int.toNat_natCast]

theorem u32_nat_eq {k : Nat} (h : k < 2 ^ 32) : u32 (k : Int) = k := by
  rw [u32_natCast, Nat.mod_eq_of_lt h]

theorem u32n_eq {k : Nat} (h : k < 2 ^ 32) : u32n k = k := Nat.mod_eq_of_lt h

/-! ### Characterization of `lcd_seek` -/

/-- The full behaviour of `lcd_seek` on a well-formed geometry when the
resulting position lies inside the buffer: the cursor becomes
`(total % width, total / width)` for `total` the origin-relative pixel count,
and the returned physical byte offset is `stride * y + x * bpp / 8`. -/
theorem lcd_seek_spec (lcd : Lcd) (offset : Int) (whence : Nat) (total : Int)
    (hw : whence = 0 ∨ whence = 1 ∨ whence = 2)
    (htotal : total =
      (if whence = 0 then 0
       else if whence = 2 then (lcd.height : Int) * lcd.width
       else lcd.y * (lcd.width : Int) + lcd.x) + (offset * 8).tdiv (lcd.bpp : Int))
    (hW0 : 0 < lcd.width)
    (hbpp : lcd.bpp = 4 ∨ lcd.bpp = 16 ∨ lcd.bpp = 32)
    (hx : 0 ≤ lcd.x) (hxW : lcd.x < (lcd.width : Int))
    (hy : 0 ≤ lcd.y) (hyH : lcd.y ≤ (lcd.height : Int))
    (hWH : (lcd.height + 1) * lcd.width < 2 ^ 32)
    (hWb : lcd.width * lcd.bpp < 2 ^ 32)
    (hdvd : 8 ∣ lcd.width * lcd.bpp)
    (hstr : lcd.width * lcd.bpp / 8 ≤ lcd.stride)
    (hsize : lcd.stride * (lcd.height + 1) < 2 ^ 32)
    (htot0 : 0 ≤ total) (htot1 : total ≤ (lcd.width : Int) * lcd.height) :
    (lcd_seek lcd offset whence).1.x = total.tmod (lcd.width : Int) ∧
    (lcd_seek lcd offset whence).1.y = total.tdiv (lcd.width : Int) ∧
    (lcd_seek lcd offset whence).2 =
      ((lcd.stride * (total.tdiv (lcd.width : Int)).toNat +
        (total.tmod (lcd.width : Int)).toNat * lcd.bpp / 8 : Nat) : Int) ∧
    (total.tmod (lcd.width : Int)).toNat * lcd.bpp / 8 < lcd.stride ∧
    (total.tmod (lcd.width : Int)).toNat < lcd.width := by
  have hbpp1 : 1 ≤ lcd.bpp := by rcases hbpp with h | h | h <;> omega
  -- the base cursor selected by the whence switch
  obtain ⟨X, Y, hX, hXW, hY, hYH, hl1, htot⟩ :
      ∃ X Y : Int, 0 ≤ X ∧ X < (lcd.width : Int) ∧ 0 ≤ Y ∧ Y ≤ (lcd.height : Int) ∧
        (if whence = 0 then { lcd with x := 0, y := 0 }
         else if whence = 2 then { lcd with x := 0, y := (lcd.height : Int) }
         else lcd) = { lcd with x := X, y := Y } ∧
        total = Y * (lcd.width : Int) + X + (offset * 8).tdiv (lcd.bpp : Int) := by
    have hWI : (0 : Int) < (lcd.width : Int) := by exact_mod_cast hW0
    rcases hw with hw | hw | hw <;> subst hw
    · exact ⟨0, 0, le_refl 0, hWI, le_refl 0, by exact_mod_cast Nat.zero_le _, by simp,
        by simpa using htotal⟩
    · exact ⟨lcd.x, lcd.y, hx, hxW, hy, hyH, by simp, by simpa using htotal⟩
    · exact ⟨0, (lcd.height : Int), le_refl 0, hWI, by exact_mod_cast Nat.zero_le _, le_refl _,
        by simp, by simpa using htotal⟩
  have hWI : (0 : Int) < (lcd.width : Int) := by exact_mod_cast hW0
  -- the cursor-to-pixel sum is exact: no 32-bit wrap occurs
  have hYWX : Y * (lcd.width : Int) + X < 2 ^ 32 := by
    have h1 : Y * (lcd.width : Int) ≤ (lcd.height : Int) * lcd.width :=
      mul_le_mul_of_nonneg_right hYH (le_of_lt hWI)
    have h2 : ((lcd.height + 1) * lcd.width : Int) < 2 ^ 32 := by exact_mod_cast hWH
    nlinarith
  have hYW0 : 0 ≤ Y * (lcd.width : Int) := mul_nonneg hY (le_of_lt hWI)
  have hu : ((u32 ((u32 (Y * (lcd.width : Int)) : Int) + X) : Nat) : Int) =
      Y * (lcd.width : Int) + X := by
    rw [u32_int_eq hYW0 (by omega), u32_int_eq (by omega) hYWX]
  -- pixel total
  have hpix : Y * (lcd.width : Int) + X + (offset * 8).tdiv (lcd.bpp : Int) = total := htot.symm
  simp only [lcd_seek, hl1]
  have hgoal1 : (offset * 8).tdiv ((({ lcd with x := X, y := Y } : Lcd)).bpp : Int) +
      ((u32 ((u32 ((({ lcd with x := X, y := Y } : Lcd)).y *
        ((({ lcd with x := X, y := Y } : Lcd)).width : Int)) : Int) +
        (({ lcd with x := X, y := Y } : Lcd)).x) : Nat) : Int) = total := by
    dsimp only
    rw [hu]
    omega
  rw [hgoal1]
  refine ⟨rfl, rfl, ?_⟩
  -- the returned byte offset
  set T : Nat := total.toNat with hT
  have htT : total = (T : Int) := (Int.toNat_of_nonneg htot0).symm
  have htmod : total.tmod (lcd.width : Int) = ((T % lcd.width : Nat) : Int) := by
    rw [htT, Int.ofNat_tmod]
  have htdiv : total.tdiv (lcd.width : Int) = ((T / lcd.width : Nat) : Int) := by
    rw [htT, Int.ofNat_tdiv]
  have hTWH : T ≤ lcd.width * lcd.height := by
    have := htot1
    rw [htT] at this
    exact_mod_cast this
  have hdivH : T / lcd.width ≤ lcd.height := by
    calc T / lcd.width ≤ lcd.width * lcd.height / lcd.width := Nat.div_le_div_right hTWH
    _ = lcd.height := Nat.mul_div_cancel_left _ hW0
  have hmodW : T % lcd.width < lcd.width := Nat.mod_lt _ hW0
  -- bound on the intra-row byte offset
  obtain ⟨k, hk⟩ := hdvd
  have hB : T % lcd.width * lcd.bpp / 8 < lcd.stride := by
    have h1 : T % lcd.width * lcd.bpp + lcd.bpp ≤ lcd.width * lcd.bpp := by
      calc T % lcd.width * lcd.bpp + lcd.bpp = (T % lcd.width + 1) * lcd.bpp := by ring
      _ ≤ lcd.width * lcd.bpp := Nat.mul_le_mul_right _ (by omega)
    have h3 : lcd.width * lcd.bpp / 8 = k := by
      rw [hk]
      exact Nat.mul_div_cancel_left k (by norm_num)
    omega
  have hA : lcd.stride * (T / lcd.width) ≤ lcd.stride * lcd.height :=
    Nat.mul_le_mul_left _ hdivH
  have hsum : lcd.stride * (T / lcd.width) + T % lcd.width * lcd.bpp / 8 < 2 ^ 32 := by
    have := hsize
    have h4 : lcd.stride * (lcd.height + 1) = lcd.stride * lcd.height + lcd.stride :=
      Nat.mul_succ _ _
    omega
  rw [htmod, htdiv]
  have hru1 : u32 ((lcd.stride : Int) * ((T / lcd.width : Nat) : Int)) =
      lcd.stride * (T / lcd.width) := by
    have : ((lcd.stride : Int)) * ((T / lcd.width : Nat) : Int) =
        ((lcd.stride * (T / lcd.width) : Nat) : Int) := by push_cast; ring
    rw [this, u32_nat_eq (by omega)]
  have hru2 : u32 (((T % lcd.width : Nat) : Int) * (lcd.bpp : Int)) =
      T % lcd.width * lcd.bpp := by
    have h5 : T % lcd.width * lcd.bpp < 2 ^ 32 := by
      have : T % lcd.width * lcd.bpp ≤ lcd.width * lcd.bpp :=
        Nat.mul_le_mul_right _ (le_of_lt hmodW)
      omega
    have h6 : ((T % lcd.width : Nat) : Int) * (lcd.bpp : Int) =
        ((T % lcd.width * lcd.bpp : Nat) : Int) := by push_cast; ring
    rw [h6, u32_nat_eq h5]
  rw [hru1, hru2, u32n_eq (by omega)]
  exact ⟨rfl, hB, hmodW⟩

/-! ### Claim C1 -/

/-- C1: for every byte offset and origin (on a well-formed geometry with a
normalized cursor, when the resulting position stays inside the buffer),
`lcd_seek` converts the offset to `pixels = offset * 8 / bpp` (truncating),
resets the cursor to (0,0) for origin start, to (0, height) for origin end
and leaves it for origin current, computes
`total = cursor.y * width + cursor.x + pixels`, stores the cursor
`(total % width, total / width)`, and returns `stride * y + x * bpp / 8`;
in particular seek with origin end and offset 0 on the 100-pixel-wide,
64-row, 4-bpp display puts the cursor at (0, 64) and returns 3200. -/
theorem c1_seek_converts_offset_and_origin (lcd : Lcd) (offset : Int) (whence : Nat)
    (total : Int)
    (hw : whence = 0 ∨ whence = 1 ∨ whence = 2)
    (htotal : total =
      (if whence = 0 then 0
       else if whence = 2 then (lcd.height : Int) * lcd.width
       else lcd.y * (lcd.width : Int) + lcd.x) + (offset * 8).tdiv (lcd.bpp : Int))
    (hW0 : 0 < lcd.width)
    (hbpp : lcd.bpp = 4 ∨ lcd.bpp = 16 ∨ lcd.bpp = 32)
    (hx : 0 ≤ lcd.x) (hxW : lcd.x < (lcd.width : Int))
    (hy : 0 ≤ lcd.y) (hyH : lcd.y ≤ (lcd.height : Int))
    (hWH : (lcd.height + 1) * lcd.width < 2 ^ 32)
    (hWb : lcd.width * lcd.bpp < 2 ^ 32)
    (hdvd : 8 ∣ lcd.width * lcd.bpp)
    (hstr : lcd.width * lcd.bpp / 8 ≤ lcd.stride)
    (hsize : lcd.stride * (lcd.height + 1) < 2 ^ 32)
    (htot0 : 0 ≤ total) (htot1 : total ≤ (lcd.width : Int) * lcd.height) :
    ((lcd_seek lcd offset whence).1.x = total.tmod (lcd.width : Int) ∧
     (lcd_seek lcd offset whence).1.y = total.tdiv (lcd.width : Int) ∧
     (lcd_seek lcd offset whence).2 =
       ((lcd.stride * (total.tdiv (lcd.width : Int)).toNat +
         (total.tmod (lcd.width : Int)).toNat * lcd.bpp / 8 : Nat) : Int)) ∧
    ((lcd_seek lcd100x64 0 2).1.x = 0 ∧ (lcd_seek lcd100x64 0 2).1.y = 64 ∧
     (lcd_seek lcd100x64 0 2).2 = 3200) := by
  obtain ⟨h1, h2, h3, _, _⟩ := lcd_seek_spec lcd offset whence total hw htotal hW0 hbpp hx hxW
    hy hyH hWH hWb hdvd hstr hsize htot0 htot1
  exact ⟨⟨h1, h2, h3⟩, by decide⟩

/-- C1 witness: the characterization applied to the scenario display itself,
with origin end, offset 0 and pixel total 6400. -/
theorem c1_witness :
    (lcd_seek lcd100x64 0 2).1.x = Int.tmod 6400 (lcd100x64.width : Int) ∧
    (lcd_seek lcd100x64 0 2).1.y = Int.tdiv 6400 (lcd100x64.width : Int) ∧
    (lcd_seek lcd100x64 0 2).2 =
      ((lcd100x64.stride * (Int.tdiv 6400 (lcd100x64.width : Int)).toNat +
        (Int.tmod 6400 (lcd100x64.width : Int)).toNat * lcd100x64.bpp / 8 : Nat) : Int) := by
  have h := c1_seek_converts_offset_and_origin lcd100x64 0 2 6400 (by norm_num) (by decide)
    (by decide) (by decide) (by decide) (by decide) (by decide) (by decide) (by decide)
    (by decide) (by decide) (by decide) (by decide) (by decide) (by decide)
  exact h.1

/-! ### Claim C4 -/

/-- C4 counterexample: on the 128×64 4-bpp display with the cursor at the
odd column x = 1, `lcd_seek(0, SEEK_CUR)` stores the cursor (1, 0) but
returns physical byte offset 0 (two pixels share one byte), so re-deriving
the column as `(offset mod stride) * 8 / bpp` yields 0, not the stored 1. -/
theorem c4_counterexample_odd_column_4bpp :
    (lcd_seek oledOddX 0 1).1.x = 1 ∧ (lcd_seek oledOddX 0 1).1.y = 0 ∧
    (lcd_seek oledOddX 0 1).2 = 0 ∧
    ((lcd_seek oledOddX 0 1).2.toNat % oledOddX.stride) * 8 / oledOddX.bpp = 0 ∧
    (0 : Nat) ≠ 1 := by
  refine ⟨by decide, by decide, by decide, by decide, by decide⟩

/-- C4 (amended): re-deriving a position from the physical byte offset
returned by `lcd_seek` (`row = offset / stride`,
`column = (offset mod stride) * 8 / bpp`) reproduces the stored cursor row
always, and the stored column exactly when `x * bpp` is a multiple of 8 —
always at 16 and 32 bpp, and for even x at 4 bpp; at 4 bpp with odd x the
re-derived column is x − 1, the other pixel of the shared byte. -/
theorem c4_seek_roundtrip (lcd : Lcd) (offset : Int) (whence : Nat) (total : Int)
    (hw : whence = 0 ∨ whence = 1 ∨ whence = 2)
    (htotal : total =
      (if whence = 0 then 0
       else if whence = 2 then (lcd.height : Int) * lcd.width
       else lcd.y * (lcd.width : Int) + lcd.x) + (offset * 8).tdiv (lcd.bpp : Int))
    (hW0 : 0 < lcd.width)
    (hbpp : lcd.bpp = 4 ∨ lcd.bpp = 16 ∨ lcd.bpp = 32)
    (hx : 0 ≤ lcd.x) (hxW : lcd.x < (lcd.width : Int))
    (hy : 0 ≤ lcd.y) (hyH : lcd.y ≤ (lcd.height : Int))
    (hWH : (lcd.height + 1) * lcd.width < 2 ^ 32)
    (hWb : lcd.width * lcd.bpp < 2 ^ 32)
    (hdvd : 8 ∣ lcd.width * lcd.bpp)
    (hstr : lcd.width * lcd.bpp / 8 ≤ lcd.stride)
    (hsize : lcd.stride * (lcd.height + 1) < 2 ^ 32)
    (htot0 : 0 ≤ total) (htot1 : total ≤ (lcd.width : Int) * lcd.height) :
    (lcd_seek lcd offset whence).2.toNat / lcd.stride =
      (total.tdiv (lcd.width : Int)).toNat ∧
    ((lcd_seek lcd offset whence).2.toNat % lcd.stride) * 8 / lcd.bpp =
      (if lcd.bpp = 4 ∧ (total.tmod (lcd.width : Int)).toNat % 2 = 1
       then (total.tmod (lcd.width : Int)).toNat - 1
       else (total.tmod (lcd.width : Int)).toNat) := by
  obtain ⟨h1, h2, h3, hB, hxv⟩ := lcd_seek_spec lcd offset whence total hw htotal hW0 hbpp hx hxW
    hy hyH hWH hWb hdvd hstr hsize htot0 htot1
  set yv : Nat := (total.tdiv (lcd.width : Int)).toNat
  set xv : Nat := (total.tmod (lcd.width : Int)).toNat
  have hoff : (lcd_seek lcd offset whence).2.toNat = lcd.stride * yv + xv * lcd.bpp / 8 := by
    rw [h3, Int.toNat_natCast]
  have hstride0 : 0 < lcd.stride := by omega
  have hdiv : (lcd.stride * yv + xv * lcd.bpp / 8) / lcd.stride = yv := by
    rw [Nat.mul_add_div hstride0, Nat.div_eq_of_lt hB, Nat.add_zero]
  have hmod : (lcd.stride * yv + xv * lcd.bpp / 8) % lcd.stride = xv * lcd.bpp / 8 := by
    rw [Nat.mul_add_mod, Nat.mod_eq_of_lt hB]
  refine ⟨by rw [hoff, hdiv], ?_⟩
  rw [hoff, hmod]
  rcases hbpp with h | h | h <;> rw [h] <;> split_ifs <;> omega

/-- C4 witness: the round trip evaluated on the 100×64 4-bpp display with
origin end and offset 0 — even column 0, so the round trip is exact. -/
theorem c4_witness :
    (lcd_seek lcd100x64 0 2).2.toNat / lcd100x64.stride =
      (Int.tdiv 6400 (lcd100x64.width : Int)).toNat ∧
    ((lcd_seek lcd100x64 0 2).2.toNat % lcd100x64.stride) * 8 / lcd100x64.bpp =
      (if lcd100x64.bpp = 4 ∧ (Int.tmod 6400 (lcd100x64.width : Int)).toNat % 2 = 1
       then (Int.tmod 6400 (lcd100x64.width : Int)).toNat - 1
       else (Int.tmod 6400 (lcd100x64.width : Int)).toNat) := by
  exact c4_seek_roundtrip lcd100x64 0 2 6400 (by norm_num) (by decide) (by decide) (by decide)
    (by decide) (by decide) (by decide) (by decide) (by decide) (by decide) (by decide)
    (by decide) (by decide) (by decide) (by decide)

/-! ### Claim C5: the colour resolver -/

theorem comp_lt {x s : Nat} (hs : s ≤ 8) : (x &&& 255) >>> (8 - s) < 2 ^ s := by
  have h1 : x &&& 255 < 256 := by
    have h2 : x &&& 255 = x % 256 := Nat.and_pow_two_sub_one_eq_mod x 8
    rw [h2]
    exact Nat.mod_lt _ (by norm_num)
  rw [Nat.shiftRight_eq_div_pow]
  rw [Nat.div_lt_iff_lt_mul (Nat.pos_pow_of_pos _ (by norm_num))]
  calc x &&& 255 < 256 := h1
  _ = 2 ^ 8 := by norm_num
  _ ≤ 2 ^ s * 2 ^ (8 - s) := by rw [← pow_add]; exact Nat.pow_le_pow_right (by norm_num) (by omega)

theorem u32n_shift_eq {v s off : Nat} (hv : v < 2 ^ s) (hoff : off + s ≤ 32) :
    u32n (v <<< off) = v <<< off := by
  apply u32n_eq
  rw [Nat.shiftLeft_eq]
  calc v * 2 ^ off < 2 ^ s * 2 ^ off := by
        exact (Nat.mul_lt_mul_right (Nat.pos_pow_of_pos _ (by norm_num))).mpr hv
  _ = 2 ^ (s + off) := by rw [← pow_add]
  _ ≤ 2 ^ 32 := Nat.pow_le_pow_right (by norm_num) (by omega)

theorem shiftLeft_testBit_outside {v : Nat} (d : ColorChan) (hv : v < 2 ^ d.size) {i : Nat}
    (hi : i < d.offset ∨ d.offset + d.size ≤ i) : (v <<< d.offset).testBit i = false := by
  rw [Nat.testBit_shiftLeft]
  rcases hi with hi | hi
  · have h : decide (d.offset ≤ i) = false := by
      simp only [decide_eq_false_iff_not]
      omega
    rw [h, Bool.false_and]
  · have hvlt : v < 2 ^ (i - d.offset) :=
      lt_of_lt_of_le hv (Nat.pow_le_pow_right (by norm_num) (by omega))
    rw [Nat.testBit_lt_two_pow hvlt, Bool.and_false]

theorem shiftLeft_testBit_inside (v off i : Nat) :
    (v <<< off).testBit (off + i) = v.testBit i := by
  rw [Nat.testBit_shiftLeft]
  simp [Nat.add_sub_cancel_left]

theorem chan_decode_eq_of_testBit (Y v : Nat) (c : ColorChan) (hv : v < 2 ^ c.size)
    (hbits : ∀ i, i < c.size → Y.testBit (c.offset + i) = v.testBit i) :
    chan_decode Y c = v := by
  apply Nat.eq_of_testBit_eq
  intro i
  unfold chan_decode
  rw [Nat.testBit_and, Nat.testBit_shiftRight, Nat.testBit_two_pow_sub_one]
  by_cases hi : i < c.size
  · simp [hbits i hi, hi]
  · have hvi : v.testBit i = false :=
      Nat.testBit_lt_two_pow (lt_of_lt_of_le hv (Nat.pow_le_pow_right (by norm_num) (by omega)))
    simp [hi, hvi]

/-- Disjointness turns a channel-window bit index into an outside index for
the other channel. -/
theorem disjoint_outside {c d : ColorChan} (h : ChanDisjoint c d) {i : Nat} (hi : i < c.size) :
    c.offset + i < d.offset ∨ d.offset + d.size ≤ c.offset + i := by
  unfold ChanDisjoint at h
  omega

/-- C5 counterexample: on the byte-swapped RGB565 panel, setting foreground
0x00FF0000 stores the byte-swapped value 0x00F8, and decoding the red channel
back out of that stored native value via the descriptor's offset and width
yields 0, not the truncated component 31 = 0xFF >> 3. -/
theorem c5_counterexample_byteswap_decode :
    (lcd_set_fgcolor lcdSwap 16711680).fgcolor = 248 ∧
    chan_decode (lcd_set_fgcolor lcdSwap 16711680).fgcolor lcdSwap.red = 0 ∧
    ((16711680 >>> 16) &&& 255) >>> (8 - lcdSwap.red.size) = 31 ∧ (0 : Nat) ≠ 31 := by
  refine ⟨by decide, by decide, by decide, by decide⟩

/-- C5 (amended): `lcd_set_fgcolor` stores the OR of each 8-bit A/R/G/B
component right-shifted by `8 - channel_size` and left-shifted to its channel
offset, byte-swapped exactly when bpp is 16 and the byte-swap flag is set
(no 32-bit wrap occurs when every channel fits in 32 bits); the operation is
deterministic and idempotent; and for a descriptor with pairwise-disjoint
channels, decoding each channel back out of the stored native value recovers
the component truncated to the channel width — provided the stored value was
not byte-swapped (at 16 bpp with the swap flag set the decode reads the
swapped value and fails, as the counterexample shows). -/
theorem c5_set_fgcolor_packs_and_decodes (lcd : Lcd) (argb : Nat)
    (ha8 : lcd.alpha.size ≤ 8) (hr8 : lcd.red.size ≤ 8)
    (hg8 : lcd.green.size ≤ 8) (hb8 : lcd.blue.size ≤ 8)
    (haOff : lcd.alpha.offset + lcd.alpha.size ≤ 32)
    (hrOff : lcd.red.offset + lcd.red.size ≤ 32)
    (hgOff : lcd.green.offset + lcd.green.size ≤ 32)
    (hbOff : lcd.blue.offset + lcd.blue.size ≤ 32) :
    ((lcd_set_fgcolor lcd argb).fgcolor =
      (if lcd.byteswap ∧ lcd.bpp = 16 then
        bswap16
          ((((argb >>> 24) &&& 255) >>> (8 - lcd.alpha.size)) <<< lcd.alpha.offset |||
           (((argb >>> 16) &&& 255) >>> (8 - lcd.red.size)) <<< lcd.red.offset |||
           (((argb >>> 8) &&& 255) >>> (8 - lcd.green.size)) <<< lcd.green.offset |||
           (((argb >>> 0) &&& 255) >>> (8 - lcd.blue.size)) <<< lcd.blue.offset)
       else
        (((argb >>> 24) &&& 255) >>> (8 - lcd.alpha.size)) <<< lcd.alpha.offset |||
        (((argb >>> 16) &&& 255) >>> (8 - lcd.red.size)) <<< lcd.red.offset |||
        (((argb >>> 8) &&& 255) >>> (8 - lcd.green.size)) <<< lcd.green.offset |||
        (((argb >>> 0) &&& 255) >>> (8 - lcd.blue.size)) <<< lcd.blue.offset)) ∧
    (lcd_set_fgcolor (lcd_set_fgcolor lcd argb) argb).fgcolor =
      (lcd_set_fgcolor lcd argb).fgcolor ∧
    (¬(lcd.byteswap ∧ lcd.bpp = 16) →
      ChanDisjoint lcd.alpha lcd.red → ChanDisjoint lcd.alpha lcd.green →
      ChanDisjoint lcd.alpha lcd.blue → ChanDisjoint lcd.red lcd.green →
      ChanDisjoint lcd.red lcd.blue → ChanDisjoint lcd.green lcd.blue →
      (chan_decode (lcd_set_fgcolor lcd argb).fgcolor lcd.alpha =
        ((argb >>> 24) &&& 255) >>> (8 - lcd.alpha.size) ∧
       chan_decode (lcd_set_fgcolor lcd argb).fgcolor lcd.red =
        ((argb >>> 16) &&& 255) >>> (8 - lcd.red.size) ∧
       chan_decode (lcd_set_fgcolor lcd argb).fgcolor lcd.green =
        ((argb >>> 8) &&& 255) >>> (8 - lcd.green.size) ∧
       chan_decode (lcd_set_fgcolor lcd argb).fgcolor lcd.blue =
        ((argb >>> 0) &&& 255) >>> (8 - lcd.blue.size))) := by
  have hva := comp_lt (x := argb >>> 24) ha8
  have hvr := comp_lt (x := argb >>> 16) hr8
  have hvg := comp_lt (x := argb >>> 8) hg8
  have hvb := comp_lt (x := argb >>> 0) hb8
  have hwrap : (lcd_set_fgcolor lcd argb).fgcolor =
      (if lcd.byteswap ∧ lcd.bpp = 16 then
        bswap16
          ((((argb >>> 24) &&& 255) >>> (8 - lcd.alpha.size)) <<< lcd.alpha.offset |||
           (((argb >>> 16) &&& 255) >>> (8 - lcd.red.size)) <<< lcd.red.offset |||
           (((argb >>> 8) &&& 255) >>> (8 - lcd.green.size)) <<< lcd.green.offset |||
           (((argb >>> 0) &&& 255) >>> (8 - lcd.blue.size)) <<< lcd.blue.offset)
       else
        (((argb >>> 24) &&& 255) >>> (8 - lcd.alpha.size)) <<< lcd.alpha.offset |||
        (((argb >>> 16) &&& 255) >>> (8 - lcd.red.size)) <<< lcd.red.offset |||
        (((argb >>> 8) &&& 255) >>> (8 - lcd.green.size)) <<< lcd.green.offset |||
        (((argb >>> 0) &&& 255) >>> (8 - lcd.blue.size)) <<< lcd.blue.offset) := by
    unfold lcd_set_fgcolor
    dsimp only
    rw [u32n_shift_eq hva (by omega), u32n_shift_eq hvr (by omega),
      u32n_shift_eq hvg (by omega), u32n_shift_eq hvb (by omega)]
  refine ⟨hwrap, rfl, fun hswap dar dag dab drg drb dgb => ?_⟩
  rw [hwrap, if_neg hswap]
  set va := ((argb >>> 24) &&& 255) >>> (8 - lcd.alpha.size) with hva_def
  set vr := ((argb >>> 16) &&& 255) >>> (8 - lcd.red.size) with hvr_def
  set vg := ((argb >>> 8) &&& 255) >>> (8 - lcd.green.size) with hvg_def
  set vb := ((argb >>> 0) &&& 255) >>> (8 - lcd.blue.size) with hvb_def
  have hsymm : ∀ c d : ColorChan, ChanDisjoint c d → ChanDisjoint d c := by
    intro c d h
    unfold ChanDisjoint at h ⊢
    omega
  refine ⟨?_, ?_, ?_, ?_⟩
  · refine chan_decode_eq_of_testBit _ _ _ hva (fun i hi => ?_)
    simp only [Nat.testBit_or]
    rw [shiftLeft_testBit_inside,
      shiftLeft_testBit_outside lcd.red hvr (disjoint_outside dar hi),
      shiftLeft_testBit_outside lcd.green hvg (disjoint_outside dag hi),
      shiftLeft_testBit_outside lcd.blue hvb (disjoint_outside dab hi)]
    simp
  · refine chan_decode_eq_of_testBit _ _ _ hvr (fun i hi => ?_)
    simp only [Nat.testBit_or]
    rw [shiftLeft_testBit_inside,
      shiftLeft_testBit_outside lcd.alpha hva (disjoint_outside (hsymm _ _ dar) hi),
      shiftLeft_testBit_outside lcd.green hvg (disjoint_outside drg hi),
      shiftLeft_testBit_outside lcd.blue hvb (disjoint_outside drb hi)]
    simp
  · refine chan_decode_eq_of_testBit _ _ _ hvg (fun i hi => ?_)
    simp only [Nat.testBit_or]
    rw [shiftLeft_testBit_inside,
      shiftLeft_testBit_outside lcd.alpha hva (disjoint_outside (hsymm _ _ dag) hi),
      shiftLeft_testBit_outside lcd.red hvr (disjoint_outside (hsymm _ _ drg) hi),
      shiftLeft_testBit_outside lcd.blue hvb (disjoint_outside dgb hi)]
    simp
  · refine chan_decode_eq_of_testBit _ _ _ hvb (fun i hi => ?_)
    simp only [Nat.testBit_or]
    rw [shiftLeft_testBit_inside,
      shiftLeft_testBit_outside lcd.alpha hva (disjoint_outside (hsymm _ _ dab) hi),
      shiftLeft_testBit_outside lcd.red hvr (disjoint_outside (hsymm _ _ drb) hi),
      shiftLeft_testBit_outside lcd.green hvg (disjoint_outside (hsymm _ _ dgb) hi)]
    simp

/-- C5 witness: the amended statement evaluated on the non-swapped RGB565
panel at ARGB 0x12345678. -/
theorem c5_witness :
    (¬(lcdNoSwap.byteswap ∧ lcdNoSwap.bpp = 16)) ∧
    (chan_decode (lcd_set_fgcolor lcdNoSwap 305419896).fgcolor lcdNoSwap.red =
      ((305419896 >>> 16) &&& 255) >>> (8 - lcdNoSwap.red.size) ∧
     chan_decode (lcd_set_fgcolor lcdNoSwap 305419896).fgcolor lcdNoSwap.green =
      ((305419896 >>> 8) &&& 255) >>> (8 - lcdNoSwap.green.size) ∧
     chan_decode (lcd_set_fgcolor lcdNoSwap 305419896).fgcolor lcdNoSwap.blue =
      ((305419896 >>> 0) &&& 255) >>> (8 - lcdNoSwap.blue.size)) := by
  have hswap : ¬(lcdNoSwap.byteswap ∧ lcdNoSwap.bpp = 16) := by decide
  have h := c5_set_fgcolor_packs_and_decodes lcdNoSwap 305419896 (by decide) (by decide)
    (by decide) (by decide) (by decide) (by decide) (by decide) (by decide)
  obtain ⟨-, -, hdec⟩ := h
  obtain ⟨-, h2, h3, h4⟩ := hdec hswap (by decide) (by decide) (by decide) (by decide)
    (by decide) (by decide)
  exact ⟨hswap, h2, h3, h4⟩

/-! ### Claim C2: clears never write outside the buffer -/

theorem u32_lt (n : Int) : u32 n < 2 ^ 32 := by
  unfold u32
  have h1 := Int.emod_lt_of_pos n (show (0 : Int) < 2 ^ 32 by norm_num)
  have h2 := Int.emod_nonneg n (show (2 ^ 32 : Int) ≠ 0 by norm_num)
  omega

theorem blitRows_not_covered (stride : Nat) (src : Nat → Nat) (xoff len : Nat) :
    ∀ (n y : Nat) (dst : Nat → Nat) (j : Nat),
      (∀ i, i < n → ¬(stride * (y + i) + xoff ≤ j ∧ j < stride * (y + i) + xoff + len)) →
      blitRows stride src xoff len y n dst j = dst j := by
  intro n
  induction n with
  | zero => intro y dst j _; rfl
  | succ n ih =>
    intro y dst j h
    rw [blitRows, ih]
    · unfold copyRow
      rw [if_neg]
      have h0 := h 0 (by omega)
      simpa using h0
    · intro i hi
      have h2 := h (i + 1) (by omega)
      have h3 : y + (i + 1) = y + 1 + i := by omega
      rw [h3] at h2
      exact h2

theorem blitRows_covered (stride : Nat) (src : Nat → Nat) (xoff len : Nat) :
    ∀ (n y : Nat) (dst : Nat → Nat) (j : Nat),
      (∃ i, i < n ∧ stride * (y + i) + xoff ≤ j ∧ j < stride * (y + i) + xoff + len) →
      blitRows stride src xoff len y n dst j = src j := by
  intro n
  induction n with
  | zero => intro y dst j h; omega
  | succ n ih =>
    intro y dst j h
    obtain ⟨i, hi, hlo, hhi⟩ := h
    rw [blitRows]
    by_cases htail :
        ∃ i2, i2 < n ∧ stride * (y + 1 + i2) + xoff ≤ j ∧ j < stride * (y + 1 + i2) + xoff + len
    · exact ih (y + 1) _ j htail
    · rw [blitRows_not_covered stride src xoff len n (y + 1) _ j (by push_neg at htail ⊢; tauto)]
      have hi0 : i = 0 := by
        by_contra h0
        exact htail ⟨i - 1, by omega, by
          have h4 : y + 1 + (i - 1) = y + i := by omega
          rw [h4]
          exact hlo, by
          have h4 : y + 1 + (i - 1) = y + i := by omega
          rw [h4]
          exact hhi⟩
      subst hi0
      unfold copyRow
      rw [if_pos]
      constructor
      · simpa using hlo
      · simpa using hhi

/-- C2 counterexample: on the default OLED with cursor row −10 and an
all-ones pixel buffer, clearing 5 lines has spec-clipped height −5 (zero or
negative, so the claim demands a no-op), yet the unsigned-wrap height in
`lcd_blit` clamps to the full display and the clear rewrites byte 0 from 1 to
the background 0. -/
theorem c2_counterexample_negative_overshoot :
    spec_clipped_height (64 : Int) (-10) 5 ≤ 0 ∧
    (lcd_clear lcdNegY 5).data 0 = 0 ∧ lcdNegY.data 0 = 1 := by
  refine ⟨by decide, by decide, rfl⟩

/-- C2 (amended): on a display without axis inversion (all displays this
program opens), for every cursor position and line count the clear writes
only bytes of in-bounds rows, inside the first `width * bpp / 8` bytes of
each row and inside the buffer; and the clear is a no-op when the line count
is zero with a nonnegative cursor row, or when the cursor row is at or below
the bottom of the display.  (When the cursor row is negative and the line
count does not reach the top, the 32-bit unsigned height wraps and the clear
restores rows 0 to height−1 instead of doing nothing, as the counterexample
shows.) -/
theorem c2_clear_stays_in_bounds (lcd : Lcd) (lines : Nat)
    (hflags : lcd.flags = 0)
    (hW0 : 0 < lcd.width)
    (hbpp1 : 1 ≤ lcd.bpp)
    (hWb : lcd.width * lcd.bpp < 2 ^ 32)
    (hstr : lcd.width * lcd.bpp / 8 ≤ lcd.stride)
    (hsize : lcd.stride * lcd.height ≤ lcd.size)
    (hH : lcd.height < 2 ^ 31)
    (hyLo : -(2 ^ 31) ≤ lcd.y) (hyHi : lcd.y < 2 ^ 31)
    (hlines : lines < 2 ^ 32) :
    (∀ j, (lcd_clear lcd lines).data j ≠ lcd.data j →
      (∃ r, r < lcd.height ∧ lcd.stride * r ≤ j ∧
        j < lcd.stride * r + lcd.width * lcd.bpp / 8) ∧ j < lcd.size) ∧
    ((lines = 0 ∧ 0 ≤ lcd.y) ∨ (lcd.height : Int) ≤ lcd.y →
      ∀ j, (lcd_clear lcd lines).data j = lcd.data j) := by
  have hbit0 : lcd.flags.testBit 0 = false := by rw [hflags]; exact Nat.zero_testBit 0
  have hbit1 : lcd.flags.testBit 1 = false := by rw [hflags]; exact Nat.zero_testBit 1
  have hbit2 : lcd.flags.testBit 2 = false := by rw [hflags]; exact Nat.zero_testBit 2
  have hWlt : lcd.width < 2 ^ 32 := by
    have h1 : lcd.width ≤ lcd.width * lcd.bpp := Nat.le_mul_of_pos_right _ (by omega)
    omega
  have hdata : ∀ j, (lcd_clear lcd lines).data j =
      lcd_blit lcd lcd.data lcd.background ⟨0, lcd.y, lcd.width, lines⟩ j := by
    intro j
    unfold lcd_clear
    rw [hbit2]
    simp only [Bool.false_eq_true, if_false]
  have hblit : ∀ j, lcd_blit lcd lcd.data lcd.background ⟨0, lcd.y, lcd.width, lines⟩ j =
      (let h1 : Nat := if lcd.y < 0 then u32 ((lines : Int) + lcd.y) else lines
       let y2 : Int := if lcd.y < 0 then 0 else lcd.y
       let h2 : Nat := if lcd.height < u32 (y2 + (h1 : Int)) then u32 ((lcd.height : Int) - y2)
         else h1
       blitRows lcd.stride lcd.background 0 (lcd.width * lcd.bpp / 8) y2.toNat
         (u32 (y2 + (h2 : Int)) - y2.toNat) lcd.data j) := by
    intro j
    unfold lcd_blit
    rw [hbit0, hbit1]
    have c0 : (((0 : Int)) < 0) = False := by norm_num
    have c2 : u32 ((0 : Int) + (lcd.width : Int)) = lcd.width := by
      rw [zero_add]
      exact u32_nat_eq hWlt
    have c4 : u32 ((0 : Int) * (lcd.bpp : Int)) = 0 := by
      rw [zero_mul]
      norm_num [u32]
    have c5 : (lcd.width = 0) = False := by
      simp only [eq_iff_iff, iff_false]
      omega
    simp only [Bool.false_eq_true, if_false, c0, c2, c4, c5, u32n_eq hWb, Nat.zero_div,
      lt_self_iff_false]
  constructor
  · intro j hchanged
    rw [hdata, hblit] at hchanged
    dsimp only at hchanged
    set y2 : Int := (if lcd.y < 0 then 0 else lcd.y) with hy2
    set h1v : Nat := (if lcd.y < 0 then u32 ((lines : Int) + lcd.y) else lines) with hh1
    set h2v : Nat := (if lcd.height < u32 (y2 + (h1v : Int)) then u32 ((lcd.height : Int) - y2)
      else h1v) with hh2
    have hrows : ∀ i, i < u32 (y2 + (h2v : Int)) - y2.toNat → y2.toNat + i < lcd.height := by
      intro i hi
      rw [hh2, hh1] at hi
      rw [hy2] at hi ⊢
      unfold u32 at hi
      split_ifs at hi
      all_goals omega
    by_cases hcov : ∃ i, i < u32 (y2 + (h2v : Int)) - y2.toNat ∧
        lcd.stride * (y2.toNat + i) + 0 ≤ j ∧ j < lcd.stride * (y2.toNat + i) + 0 +
          lcd.width * lcd.bpp / 8
    · obtain ⟨i, hi, hlo, hhi⟩ := hcov
      have hrow : y2.toNat + i < lcd.height := hrows i hi
      refine ⟨⟨y2.toNat + i, hrow, by omega, by omega⟩, ?_⟩
      have hr1 : lcd.stride * (y2.toNat + i) + lcd.width * lcd.bpp / 8 ≤
          lcd.stride * lcd.height := by
        calc lcd.stride * (y2.toNat + i) + lcd.width * lcd.bpp / 8
            ≤ lcd.stride * (y2.toNat + i) + lcd.stride := by omega
        _ = lcd.stride * (y2.toNat + i + 1) := by ring
        _ ≤ lcd.stride * lcd.height := Nat.mul_le_mul_left _ (by omega)
      omega
    · exfalso
      apply hchanged
      apply blitRows_not_covered
      intro i hi hcon
      exact hcov ⟨i, hi, hcon.1, hcon.2⟩
  · intro hnoop j
    rw [hdata, hblit]
    dsimp only
    set y2 : Int := (if lcd.y < 0 then 0 else lcd.y) with hy2
    set h1v : Nat := (if lcd.y < 0 then u32 ((lines : Int) + lcd.y) else lines) with hh1
    set h2v : Nat := (if lcd.height < u32 (y2 + (h1v : Int)) then u32 ((lcd.height : Int) - y2)
      else h1v) with hh2
    have hn : u32 (y2 + (h2v : Int)) - y2.toNat = 0 := by
      rw [hh2, hh1]
      rw [hy2]
      unfold u32
      rcases hnoop with ⟨hl0, hy0⟩ | hybelow
      · subst hl0
        split_ifs
        all_goals omega
      · have h0 : (0 : Int) ≤ (lcd.height : Int) := by positivity
        split_ifs
        all_goals omega
    rw [hn]
    rfl

/-- C2 witness: the amended statement evaluated on the default OLED with the
cursor at row 70, below the bottom edge, clearing 5 lines. -/
theorem c2_witness :
    ((64 : Int) ≤ ({ baseLcd with y := 70 } : Lcd).y) ∧
    (∀ j, (lcd_clear { baseLcd with y := 70 } 5).data j =
      ({ baseLcd with y := 70 } : Lcd).data j) := by
  have h := c2_clear_stays_in_bounds { baseLcd with y := 70 } 5 (by decide) (by decide)
    (by decide) (by decide) (by decide) (by decide) (by decide) (by decide) (by decide)
    (by decide)
  exact ⟨by decide, h.2 (Or.inr (by decide))⟩

/-! ### The glyph loops: cursor tracking and write containment -/

theorem lcd_move_cursor_data (l : Lcd) (c r : Int) :
    (lcd_move_cursor l c r).data = l.data := by
  unfold lcd_move_cursor; split <;> rfl

theorem lcd_move_cursor_width (l : Lcd) (c r : Int) :
    (lcd_move_cursor l c r).width = l.width := by
  unfold lcd_move_cursor; split <;> rfl

theorem lcd_move_cursor_height (l : Lcd) (c r : Int) :
    (lcd_move_cursor l c r).height = l.height := by
  unfold lcd_move_cursor; split <;> rfl

theorem lcd_move_cursor_stride (l : Lcd) (c r : Int) :
    (lcd_move_cursor l c r).stride = l.stride := by
  unfold lcd_move_cursor; split <;> rfl

theorem lcd_move_cursor_bpp (l : Lcd) (c r : Int) :
    (lcd_move_cursor l c r).bpp = l.bpp := by
  unfold lcd_move_cursor; split <;> rfl

theorem lcd_move_cursor_flags (l : Lcd) (c r : Int) :
    (lcd_move_cursor l c r).flags = l.flags := by
  unfold lcd_move_cursor; split <;> rfl

theorem lcd_move_cursor_x0 (l : Lcd) (c r : Int) (hf : l.flags = 0) :
    (lcd_move_cursor l c r).x = l.x + c := by
  unfold lcd_move_cursor
  have h : l.flags.testBit 2 = false := by rw [hf]; exact Nat.zero_testBit 2
  rw [h]
  simp

theorem lcd_move_cursor_y0 (l : Lcd) (c r : Int) (hf : l.flags = 0) :
    (lcd_move_cursor l c r).y = l.y + r := by
  unfold lcd_move_cursor
  have h : l.flags.testBit 2 = false := by rw [hf]; exact Nat.zero_testBit 2
  rw [h]
  simp

theorem putcRows_state (pix : Lcd → Bool → Lcd) (W H S B : Nat) (P : PixOk pix W H S B)
    (bit : Nat → Bool) :
    ∀ (k r : Nat) (l : Lcd), l.flags = 0 →
      (putcRows pix bit k r l).x = l.x ∧ (putcRows pix bit k r l).y = l.y + (k : Int) ∧
      (putcRows pix bit k r l).width = l.width ∧
      (putcRows pix bit k r l).height = l.height ∧
      (putcRows pix bit k r l).stride = l.stride ∧ (putcRows pix bit k r l).bpp = l.bpp ∧
      (putcRows pix bit k r l).flags = 0 ∧
      (putcRows pix bit k r l).background = l.background := by
  intro k
  induction k with
  | zero =>
    intro r l hf
    exact ⟨rfl, by simp [putcRows], rfl, rfl, rfl, rfl, hf, rfl⟩
  | succ k ih =>
    intro r l hf
    rw [putcRows]
    set lp := pix l (bit r) with hlp
    have hpflags : lp.flags = 0 := by rw [hlp, P.flags_eq, hf]
    set l2 := lcd_move_cursor lp 0 1 with hl2
    have hl2flags : l2.flags = 0 := by rw [hl2, lcd_move_cursor_flags, hpflags]
    obtain ⟨ih1, ih2, ih3, ih4, ih5, ih6, ih7, ih8⟩ := ih (r + 1) l2 hl2flags
    have hx2 : l2.x = l.x := by
      rw [hl2, lcd_move_cursor_x0 _ _ _ hpflags, hlp, P.x_eq]
      ring
    have hy2 : l2.y = l.y + 1 := by
      rw [hl2, lcd_move_cursor_y0 _ _ _ hpflags, hlp, P.y_eq]
    refine ⟨by rw [ih1, hx2], by rw [ih2, hy2]; push_cast; ring, ?_, ?_, ?_, ?_, ih7, ?_⟩
    · rw [ih3, hl2, lcd_move_cursor_width, hlp, P.width_eq]
    · rw [ih4, hl2, lcd_move_cursor_height, hlp, P.height_eq]
    · rw [ih5, hl2, lcd_move_cursor_stride, hlp, P.stride_eq]
    · rw [ih6, hl2, lcd_move_cursor_bpp, hlp, P.bpp_eq]
    · rw [ih8, hl2, lcd_move_cursor_background, hlp, P.bg_eq]

theorem putcRows_data (pix : Lcd → Bool → Lcd) (W H S B : Nat) (P : PixOk pix W H S B)
    (bit : Nat → Bool) :
    ∀ (k r : Nat) (l : Lcd) (j : Nat), l.flags = 0 → l.width = W → l.height = H →
      l.stride = S → l.bpp = B →
      (putcRows pix bit k r l).data j ≠ l.data j →
      ∃ i : Nat, i < k ∧ 0 ≤ l.y + (i : Int) ∧ l.y + (i : Int) < (H : Int) ∧
        S * (l.y + (i : Int)).toNat ≤ j ∧ j < S * (l.y + (i : Int)).toNat + W * B / 8 := by
  intro k
  induction k with
  | zero => intro r l j _ _ _ _ _ h; exact absurd rfl h
  | succ k ih =>
    intro r l j hf hW hH hS hB hch
    rw [putcRows] at hch
    set lp := pix l (bit r) with hlp
    have hpflags : lp.flags = 0 := by rw [hlp, P.flags_eq, hf]
    set l2 := lcd_move_cursor lp 0 1 with hl2
    have hl2flags : l2.flags = 0 := by rw [hl2, lcd_move_cursor_flags, hpflags]
    have hl2W : l2.width = W := by rw [hl2, lcd_move_cursor_width, hlp, P.width_eq, hW]
    have hl2H : l2.height = H := by rw [hl2, lcd_move_cursor_height, hlp, P.height_eq, hH]
    have hl2S : l2.stride = S := by rw [hl2, lcd_move_cursor_stride, hlp, P.stride_eq, hS]
    have hl2B : l2.bpp = B := by rw [hl2, lcd_move_cursor_bpp, hlp, P.bpp_eq, hB]
    have hl2data : l2.data = lp.data := by rw [hl2, lcd_move_cursor_data]
    have hy2 : l2.y = l.y + 1 := by
      rw [hl2, lcd_move_cursor_y0 _ _ _ hpflags, hlp, P.y_eq]
    by_cases htail : (putcRows pix bit k (r + 1) l2).data j = l2.data j
    · rw [htail, hl2data, hlp] at hch
      obtain ⟨hy0, hyH, hlo, hhi⟩ := P.data_sub l (bit r) j hW hH hS hB hf hch
      refine ⟨0, by omega, ?_, ?_, ?_, ?_⟩ <;> simpa
    · obtain ⟨i, hik, h1, h2, h3, h4⟩ := ih (r + 1) l2 j hl2flags hl2W hl2H hl2S hl2B htail
      have he : l2.y + (i : Int) = l.y + ((i + 1 : Nat) : Int) := by
        rw [hy2]
        push_cast
        ring
      rw [he] at h1 h2 h3 h4
      exact ⟨i + 1, by omega, h1, h2, h3, h4⟩

theorem putcCols_state (pix : Lcd → Bool → Lcd) (W H S B : Nat) (P : PixOk pix W H S B)
    (colBit : Nat → Nat → Bool) (fh : Nat) :
    ∀ (n fi : Nat) (l : Lcd), l.flags = 0 →
      (putcCols pix colBit fh n fi l).x = l.x + (n : Int) ∧
      (putcCols pix colBit fh n fi l).y = l.y ∧
      (putcCols pix colBit fh n fi l).width = l.width ∧
      (putcCols pix colBit fh n fi l).height = l.height ∧
      (putcCols pix colBit fh n fi l).stride = l.stride ∧
      (putcCols pix colBit fh n fi l).bpp = l.bpp ∧
      (putcCols pix colBit fh n fi l).flags = 0 ∧
      (putcCols pix colBit fh n fi l).background = l.background := by
  intro n
  induction n with
  | zero =>
    intro fi l hf
    exact ⟨by simp [putcCols], rfl, rfl, rfl, rfl, rfl, hf, rfl⟩
  | succ n ih =>
    intro fi l hf
    rw [putcCols]
    set l1 := putcRows pix (colBit fi) fh 0 l with hl1
    obtain ⟨r1, r2, r3, r4, r5, r6, r7, r8⟩ := putcRows_state pix W H S B P (colBit fi) fh 0 l hf
    set l2 := lcd_move_cursor l1 0 (-(fh : Int)) with hl2
    have hl2flags : l2.flags = 0 := by rw [hl2, lcd_move_cursor_flags, r7]
    set l3 := lcd_move_cursor l2 1 0 with hl3
    have hl3flags : l3.flags = 0 := by rw [hl3, lcd_move_cursor_flags, hl2flags]
    have hx3 : l3.x = l.x + 1 := by
      rw [hl3, lcd_move_cursor_x0 _ _ _ hl2flags, hl2, lcd_move_cursor_x0 _ _ _ r7, r1]
      ring
    have hy3 : l3.y = l.y := by
      rw [hl3, lcd_move_cursor_y0 _ _ _ hl2flags, hl2, lcd_move_cursor_y0 _ _ _ r7, r2]
      ring
    obtain ⟨ih1, ih2, ih3, ih4, ih5, ih6, ih7, ih8⟩ := ih (fi + 1) l3 hl3flags
    refine ⟨by rw [ih1, hx3]; push_cast; ring, by rw [ih2, hy3], ?_, ?_, ?_, ?_, ih7, ?_⟩
    · rw [ih3, hl3, lcd_move_cursor_width, hl2, lcd_move_cursor_width, r3]
    · rw [ih4, hl3, lcd_move_cursor_height, hl2, lcd_move_cursor_height, r4]
    · rw [ih5, hl3, lcd_move_cursor_stride, hl2, lcd_move_cursor_stride, r5]
    · rw [ih6, hl3, lcd_move_cursor_bpp, hl2, lcd_move_cursor_bpp, r6]
    · rw [ih8, hl3, lcd_move_cursor_background, hl2, lcd_move_cursor_background, r8]

theorem putcCols_data (pix : Lcd → Bool → Lcd) (W H S B : Nat) (P : PixOk pix W H S B)
    (colBit : Nat → Nat → Bool) (fh : Nat) :
    ∀ (n fi : Nat) (l : Lcd) (j : Nat), l.flags = 0 → l.width = W → l.height = H →
      l.stride = S → l.bpp = B →
      (putcCols pix colBit fh n fi l).data j ≠ l.data j →
      ∃ rr : Int, l.y ≤ rr ∧ rr < l.y + (fh : Int) ∧ 0 ≤ rr ∧ rr < (H : Int) ∧
        S * rr.toNat ≤ j ∧ j < S * rr.toNat + W * B / 8 := by
  intro n
  induction n with
  | zero => intro fi l j _ _ _ _ _ h; exact absurd rfl h
  | succ n ih =>
    intro fi l j hf hW hH hS hB hch
    rw [putcCols] at hch
    set l1 := putcRows pix (colBit fi) fh 0 l with hl1
    obtain ⟨r1, r2, r3, r4, r5, r6, r7, r8⟩ := putcRows_state pix W H S B P (colBit fi) fh 0 l hf
    set l2 := lcd_move_cursor l1 0 (-(fh : Int)) with hl2
    have hl2flags : l2.flags = 0 := by rw [hl2, lcd_move_cursor_flags, r7]
    set l3 := lcd_move_cursor l2 1 0 with hl3
    have hl3flags : l3.flags = 0 := by rw [hl3, lcd_move_cursor_flags, hl2flags]
    have hy3 : l3.y = l.y := by
      rw [hl3, lcd_move_cursor_y0 _ _ _ hl2flags, hl2, lcd_move_cursor_y0 _ _ _ r7, r2]
      ring
    have hl3W : l3.width = W := by
      rw [hl3, lcd_move_cursor_width, hl2, lcd_move_cursor_width, r3, hW]
    have hl3H : l3.height = H := by
      rw [hl3, lcd_move_cursor_height, hl2, lcd_move_cursor_height, r4, hH]
    have hl3S : l3.stride = S := by
      rw [hl3, lcd_move_cursor_stride, hl2, lcd_move_cursor_stride, r5, hS]
    have hl3B : l3.bpp = B := by
      rw [hl3, lcd_move_cursor_bpp, hl2, lcd_move_cursor_bpp, r6, hB]
    have hl3data : l3.data = l1.data := by
      rw [hl3, lcd_move_cursor_data, hl2, lcd_move_cursor_data]
    by_cases htail : (putcCols pix colBit fh n (fi + 1) l3).data j = l3.data j
    · rw [htail, hl3data] at hch
      obtain ⟨i, hik, h1, h2, h3, h4⟩ :=
        putcRows_data pix W H S B P (colBit fi) fh 0 l j hf hW hH hS hB hch
      exact ⟨l.y + (i : Int), by omega, by omega, h1, h2, h3, h4⟩
    · obtain ⟨rr, h1, h2, h3, h4, h5, h6⟩ := ih (fi + 1) l3 j hl3flags hl3W hl3H hl3S hl3B htail
      rw [hy3] at h1 h2
      exact ⟨rr, h1, h2, h3, h4, h5, h6⟩

/-! ### The three pixel writers satisfy the loop contract -/

theorem pixOk4 (W H S : Nat) (hW2 : 2 ∣ W) : PixOk putcPixel4 W H S 4 := by
  refine ⟨?_, ?_, ?_, ?_, ?_, ?_, ?_, ?_, ?_⟩
  all_goals intro l b
  · unfold putcPixel4; split <;> rfl
  · unfold putcPixel4; split <;> rfl
  · unfold putcPixel4; split <;> rfl
  · unfold putcPixel4; split <;> rfl
  · unfold putcPixel4; split <;> rfl
  · unfold putcPixel4; split <;> rfl
  · unfold putcPixel4; split <;> rfl
  · unfold putcPixel4; split <;> rfl
  · intro j hW hH hS hB hf hch
    unfold putcPixel4 at hch
    split at hch
    case isFalse => exact absurd rfl hch
    case isTrue hv =>
      obtain ⟨hx0, hxW, hy0, hyH⟩ := hv
      have hlx : lcd_x l = l.x := by
        unfold lcd_x
        rw [show l.flags.testBit 0 = false by rw [hf]; exact Nat.zero_testBit 0]
        simp
      have hly : lcd_y l = l.y := by
        unfold lcd_y
        rw [show l.flags.testBit 1 = false by rw [hf]; exact Nat.zero_testBit 1]
        simp
      dsimp only at hch
      rw [hlx, hly] at hch
      have hxlt : l.x.toNat < W := by
        rw [← hW]
        omega
      have hidx : l.y.toNat * l.stride + l.x.toNat * l.bpp / 8 =
          S * l.y.toNat + l.x.toNat / 2 := by
        rw [hS, hB, Nat.mul_comm l.y.toNat S]
        omega
      rw [hidx] at hch
      by_cases hj : j = S * l.y.toNat + l.x.toNat / 2
      · refine ⟨hy0, by rw [← hH]; exact hyH, by omega, by omega⟩
      · rw [if_neg hj] at hch
        exact absurd rfl hch

theorem pixOk16 (W H S : Nat) (hS2 : 2 ∣ S) : PixOk putcPixel16 W H S 16 := by
  refine ⟨?_, ?_, ?_, ?_, ?_, ?_, ?_, ?_, ?_⟩
  all_goals intro l b
  · unfold putcPixel16; split <;> rfl
  · unfold putcPixel16; split <;> rfl
  · unfold putcPixel16; split <;> rfl
  · unfold putcPixel16; split <;> rfl
  · unfold putcPixel16; split <;> rfl
  · unfold putcPixel16; split <;> rfl
  · unfold putcPixel16; split <;> rfl
  · unfold putcPixel16; split <;> rfl
  · intro j hW hH hS hB hf hch
    unfold putcPixel16 at hch
    split at hch
    case isFalse => exact absurd rfl hch
    case isTrue hv =>
      obtain ⟨hx0, hxW, hy0, hyH⟩ := hv
      have hlx : lcd_x l = l.x := by
        unfold lcd_x
        rw [show l.flags.testBit 0 = false by rw [hf]; exact Nat.zero_testBit 0]
        simp
      have hly : lcd_y l = l.y := by
        unfold lcd_y
        rw [show l.flags.testBit 1 = false by rw [hf]; exact Nat.zero_testBit 1]
        simp
      dsimp only at hch
      rw [hlx, hly] at hch
      have hxlt : l.x.toNat < W := by rw [← hW]; omega
      have hidx : l.y.toNat * l.stride + l.x.toNat * l.bpp / 8 =
          S * l.y.toNat + 2 * l.x.toNat := by
        rw [hS, hB, Nat.mul_comm l.y.toNat S]
        omega
      rw [hidx] at hch
      obtain ⟨s2, hs2⟩ := hS2
      have heven : 2 * ((S * l.y.toNat + 2 * l.x.toNat) / 2) = S * l.y.toNat + 2 * l.x.toNat := by
        have h2 : S * l.y.toNat = 2 * (s2 * l.y.toNat) := by rw [hs2]; ring
        omega
      rw [heven] at hch
      by_cases hj1 : j = S * l.y.toNat + 2 * l.x.toNat
      · refine ⟨hy0, by rw [← hH]; exact hyH, by omega, by omega⟩
      · rw [if_neg hj1] at hch
        by_cases hj2 : j = S * l.y.toNat + 2 * l.x.toNat + 1
        · refine ⟨hy0, by rw [← hH]; exact hyH, by omega, by omega⟩
        · rw [if_neg hj2] at hch
          exact absurd rfl hch

theorem pixOk32 (W H S : Nat) (hS4 : 4 ∣ S) : PixOk putcPixel32 W H S 32 := by
  refine ⟨?_, ?_, ?_, ?_, ?_, ?_, ?_, ?_, ?_⟩
  all_goals intro l b
  · unfold putcPixel32; split <;> rfl
  · unfold putcPixel32; split <;> rfl
  · unfold putcPixel32; split <;> rfl
  · unfold putcPixel32; split <;> rfl
  · unfold putcPixel32; split <;> rfl
  · unfold putcPixel32; split <;> rfl
  · unfold putcPixel32; split <;> rfl
  · unfold putcPixel32; split <;> rfl
  · intro j hW hH hS hB hf hch
    unfold putcPixel32 at hch
    split at hch
    case isFalse => exact absurd rfl hch
    case isTrue hv =>
      obtain ⟨hx0, hxW, hy0, hyH⟩ := hv
      have hlx : lcd_x l = l.x := by
        unfold lcd_x
        rw [show l.flags.testBit 0 = false by rw [hf]; exact Nat.zero_testBit 0]
        simp
      have hly : lcd_y l = l.y := by
        unfold lcd_y
        rw [show l.flags.testBit 1 = false by rw [hf]; exact Nat.zero_testBit 1]
        simp
      dsimp only at hch
      rw [hlx, hly] at hch
      have hxlt : l.x.toNat < W := by rw [← hW]; omega
      have hidx : l.y.toNat * l.stride + l.x.toNat * l.bpp / 8 =
          S * l.y.toNat + 4 * l.x.toNat := by
        rw [hS, hB, Nat.mul_comm l.y.toNat S]
        omega
      rw [hidx] at hch
      obtain ⟨s4, hs4⟩ := hS4
      have heven : 4 * ((S * l.y.toNat + 4 * l.x.toNat) / 4) = S * l.y.toNat + 4 * l.x.toNat := by
        have h2 : S * l.y.toNat = 4 * (s4 * l.y.toNat) := by rw [hs4]; ring
        omega
      rw [heven] at hch
      by_cases hj1 : j = S * l.y.toNat + 4 * l.x.toNat
      · refine ⟨hy0, by rw [← hH]; exact hyH, by omega, by omega⟩
      · rw [if_neg hj1] at hch
        by_cases hj2 : j = S * l.y.toNat + 4 * l.x.toNat + 1
        · refine ⟨hy0, by rw [← hH]; exact hyH, by omega, by omega⟩
        · rw [if_neg hj2] at hch
          by_cases hj3 : j = S * l.y.toNat + 4 * l.x.toNat + 2
          · refine ⟨hy0, by rw [← hH]; exact hyH, by omega, by omega⟩
          · rw [if_neg hj3] at hch
            by_cases hj4 : j = S * l.y.toNat + 4 * l.x.toNat + 3
            · refine ⟨hy0, by rw [← hH]; exact hyH, by omega, by omega⟩
            · rw [if_neg hj4] at hch
              exact absurd rfl hch

/-! ### Characterization of `lcd_clear` for an in-bounds nonnegative cursor -/

theorem lcd_clear_data_eq (lcd : Lcd) (lines : Nat)
    (hflags : lcd.flags = 0) (hW0 : 0 < lcd.width) (hbpp1 : 1 ≤ lcd.bpp)
    (hWb : lcd.width * lcd.bpp < 2 ^ 32)
    (hy0 : 0 ≤ lcd.y) (hyH : lcd.y < (lcd.height : Int))
    (hH31 : lcd.height < 2 ^ 31)
    (hsum : lcd.y.toNat + lines < 2 ^ 32) :
    (∀ j, (∃ r, lcd.y.toNat ≤ r ∧ r < min (lcd.y.toNat + lines) lcd.height ∧
        lcd.stride * r ≤ j ∧ j < lcd.stride * r + lcd.width * lcd.bpp / 8) →
      (lcd_clear lcd lines).data j = lcd.background j) ∧
    (∀ j, (∀ r, lcd.y.toNat ≤ r → r < min (lcd.y.toNat + lines) lcd.height →
        ¬(lcd.stride * r ≤ j ∧ j < lcd.stride * r + lcd.width * lcd.bpp / 8)) →
      (lcd_clear lcd lines).data j = lcd.data j) := by
  have hbit0 : lcd.flags.testBit 0 = false := by rw [hflags]; exact Nat.zero_testBit 0
  have hbit1 : lcd.flags.testBit 1 = false := by rw [hflags]; exact Nat.zero_testBit 1
  have hbit2 : lcd.flags.testBit 2 = false := by rw [hflags]; exact Nat.zero_testBit 2
  have hWlt : lcd.width < 2 ^ 32 := by
    have h1 : lcd.width ≤ lcd.width * lcd.bpp := Nat.le_mul_of_pos_right _ (by omega)
    omega
  have hyneg : ¬(lcd.y < 0) := by omega
  have hcore : ∀ j, (lcd_clear lcd lines).data j =
      blitRows lcd.stride lcd.background 0 (lcd.width * lcd.bpp / 8) lcd.y.toNat
        (min (lcd.y.toNat + lines) lcd.height - lcd.y.toNat) lcd.data j := by
    intro j
    unfold lcd_clear
    rw [hbit2]
    simp only [Bool.false_eq_true, if_false]
    unfold lcd_blit
    rw [hbit0, hbit1]
    have c0 : (((0 : Int)) < 0) = False := by norm_num
    have c1 : (lcd.y < 0) = False := by
      simp only [eq_iff_iff, iff_false]
      omega
    have c2 : u32 ((0 : Int) + (lcd.width : Int)) = lcd.width := by
      rw [zero_add]
      exact u32_nat_eq hWlt
    have c4 : u32 ((0 : Int) * (lcd.bpp : Int)) = 0 := by
      rw [zero_mul]
      norm_num [u32]
    have c5 : (lcd.width = 0) = False := by
      simp only [eq_iff_iff, iff_false]
      omega
    simp only [Bool.false_eq_true, if_false, c0, c1, c2, c4, c5, u32n_eq hWb, Nat.zero_div,
      lt_self_iff_false]
    have hend : u32 (lcd.y +
        (((if lcd.height < u32 (lcd.y + (lines : Int)) then u32 ((lcd.height : Int) - lcd.y)
          else lines) : Nat) : Int)) = min (lcd.y.toNat + lines) lcd.height := by
      unfold u32
      split_ifs
      all_goals omega
    rw [hend]
  constructor
  · intro j hcov
    obtain ⟨r, hr1, hr2, hr3, hr4⟩ := hcov
    rw [hcore]
    apply blitRows_covered
    exact ⟨r - lcd.y.toNat, by omega,
      by rw [show lcd.y.toNat + (r - lcd.y.toNat) = r by omega]; omega,
      by rw [show lcd.y.toNat + (r - lcd.y.toNat) = r by omega]; omega⟩
  · intro j hncov
    rw [hcore]
    apply blitRows_not_covered
    intro i hi hcon
    exact hncov (lcd.y.toNat + i) (by omega) (by omega) ⟨by omega, by omega⟩

/-! ### Claim C3: draw a glyph, clear its rows, get the old pixels back -/

/-- The common core of claim C3: on an untransformed display whose background
equals its pixel buffer, running one glyph loop from an in-bounds cursor and
then clearing `fh` rows from the glyph's starting row restores the pixel
buffer exactly. -/
theorem draw_clear_core (pix : Lcd → Bool → Lcd) (colBit : Nat → Nat → Bool) (lcd : Lcd)
    (fh n fi : Nat)
    (P : PixOk pix lcd.width lcd.height lcd.stride lcd.bpp)
    (hflags : lcd.flags = 0) (hW0 : 0 < lcd.width) (hbpp1 : 1 ≤ lcd.bpp)
    (hWb : lcd.width * lcd.bpp < 2 ^ 32)
    (hH31 : lcd.height < 2 ^ 31)
    (hy0 : 0 ≤ lcd.y) (hyH : lcd.y < (lcd.height : Int))
    (hsum : lcd.y.toNat + fh < 2 ^ 32)
    (hbg : lcd.background = lcd.data) :
    (lcd_clear { (putcCols pix colBit fh n fi lcd) with y := lcd.y } fh).data = lcd.data := by
  set l1 := putcCols pix colBit fh n fi lcd with hl1
  obtain ⟨s1, s2, s3, s4, s5, s6, s7, s8⟩ :=
    putcCols_state pix lcd.width lcd.height lcd.stride lcd.bpp P colBit fh n fi lcd hflags
  set l2 : Lcd := { l1 with y := lcd.y } with hl2
  have h2W : l2.width = lcd.width := s3
  have h2H : l2.height = lcd.height := s4
  have h2S : l2.stride = lcd.stride := s5
  have h2B : l2.bpp = lcd.bpp := s6
  have h2F : l2.flags = 0 := s7
  have h2BG : l2.background = lcd.data := by
    rw [← hbg]
    exact s8
  have h2D : l2.data = l1.data := rfl
  have h2Y : l2.y = lcd.y := rfl
  obtain ⟨hcov, hncov⟩ := lcd_clear_data_eq l2 fh h2F (by rw [h2W]; exact hW0)
    (by rw [h2B]; exact hbpp1) (by rw [h2W, h2B]; exact hWb) (by rw [h2Y]; exact hy0)
    (by rw [h2Y, h2H]; exact hyH) (by rw [h2H]; exact hH31) (by rw [h2Y]; exact hsum)
  rw [h2W, h2H, h2S, h2B, h2Y] at hcov hncov
  rw [h2BG] at hcov
  rw [h2D] at hncov
  funext j
  by_cases hc : ∃ r, lcd.y.toNat ≤ r ∧ r < min (lcd.y.toNat + fh) lcd.height ∧
      lcd.stride * r ≤ j ∧ j < lcd.stride * r + lcd.width * lcd.bpp / 8
  · exact hcov j hc
  · have hnc : ∀ r, lcd.y.toNat ≤ r → r < min (lcd.y.toNat + fh) lcd.height →
        ¬(lcd.stride * r ≤ j ∧ j < lcd.stride * r + lcd.width * lcd.bpp / 8) := by
      intro r h1 h2 hcon
      exact hc ⟨r, h1, h2, hcon.1, hcon.2⟩
    rw [hncov j hnc]
    by_contra hne
    obtain ⟨rr, g1, g2, g3, g4, g5, g6⟩ :=
      putcCols_data pix lcd.width lcd.height lcd.stride lcd.bpp P colBit fh n fi lcd j hflags
        rfl rfl rfl rfl hne
    exact hc ⟨rr.toNat, by omega, by omega, g5, g6⟩

/-- C3: for every bits-per-pixel in {4, 16, 32} and every in-bounds cursor
position on an untransformed well-formed display whose background buffer
equals the current pixel buffer (as after `lcd_save_background`), drawing one
glyph with `lcd_putc` and then clearing the glyph's rows (cursor reset to the
glyph's starting row) restores the pixel buffer exactly. -/
theorem c3_draw_then_clear_restores (font : Nat → Nat) (lcd : Lcd) (c : Nat)
    (hflags : lcd.flags = 0)
    (hbpp : lcd.bpp = 4 ∨ lcd.bpp = 16 ∨ lcd.bpp = 32)
    (hW0 : 0 < lcd.width)
    (hWb : lcd.width * lcd.bpp < 2 ^ 32)
    (hdvd : 8 ∣ lcd.width * lcd.bpp)
    (hs16 : lcd.bpp = 16 → 2 ∣ lcd.stride)
    (hs32 : lcd.bpp = 32 → 4 ∣ lcd.stride)
    (hH31 : lcd.height < 2 ^ 31)
    (hy0 : 0 ≤ lcd.y) (hyH : lcd.y < (lcd.height : Int))
    (hbg : lcd.background = lcd.data) :
    (lcd_clear { ((lcd_putc font lcd c).getD lcd) with y := lcd.y }
      (lcd_font_height lcd)).data = lcd.data := by
  have hyN : lcd.y.toNat < lcd.height := by omega
  have hsum : lcd.y.toNat + lcd_font_height lcd < 2 ^ 32 := by
    unfold lcd_font_height lcd_scale_factor
    omega
  rcases hbpp with hB | hB | hB
  · have hputc : lcd_putc font lcd c = some (lcd_putc_4bpp font lcd c) := by
      unfold lcd_putc
      rw [if_pos hB]
    rw [hputc]
    simp only [Option.getD_some]
    unfold lcd_putc_4bpp
    have hW2 : 2 ∣ lcd.width := by
      rw [hB] at hdvd
      omega
    have P : PixOk putcPixel4 lcd.width lcd.height lcd.stride lcd.bpp := by
      rw [hB]
      exact pixOk4 lcd.width lcd.height lcd.stride hW2
    exact draw_clear_core putcPixel4 _ lcd _ _ _ P hflags hW0 (by omega) hWb hH31 hy0 hyH
      hsum hbg
  · have hputc : lcd_putc font lcd c = some (lcd_putc_16bpp font lcd c) := by
      unfold lcd_putc
      rw [if_neg (by omega), if_pos hB]
    rw [hputc]
    simp only [Option.getD_some]
    unfold lcd_putc_16bpp
    have P : PixOk putcPixel16 lcd.width lcd.height lcd.stride lcd.bpp := by
      rw [hB]
      exact pixOk16 lcd.width lcd.height lcd.stride (hs16 hB)
    exact draw_clear_core putcPixel16 _ lcd _ _ _ P hflags hW0 (by omega) hWb hH31 hy0 hyH
      hsum hbg
  · have hputc : lcd_putc font lcd c = some (lcd_putc_32bpp font lcd c) := by
      unfold lcd_putc
      rw [if_neg (by omega), if_neg (by omega), if_pos hB]
    rw [hputc]
    simp only [Option.getD_some]
    unfold lcd_putc_32bpp
    have P : PixOk putcPixel32 lcd.width lcd.height lcd.stride lcd.bpp := by
      rw [hB]
      exact pixOk32 lcd.width lcd.height lcd.stride (hs32 hB)
    exact draw_clear_core putcPixel32 _ lcd _ _ _ P hflags hW0 (by omega) hWb hH31 hy0 hyH
      hsum hbg

/-- C3 witness: draw-then-clear evaluated on the tiny 2×2 4-bpp display at
cursor (0, 0) with background equal to the pixel buffer. -/
theorem c3_witness :
    tinyLcd.background = tinyLcd.data ∧
    (lcd_clear { ((lcd_putc font0 tinyLcd 65).getD tinyLcd) with y := tinyLcd.y }
      (lcd_font_height tinyLcd)).data = tinyLcd.data :=
  ⟨rfl, c3_draw_then_clear_restores font0 tinyLcd 65 rfl (Or.inl rfl) (by decide) (by decide)
    (by decide) (by decide) (by decide) (by decide) (by decide) (by decide) rfl⟩

/-! ### Precise effect of one 4-bpp glyph column -/

theorem putcPixel4_fields (l : Lcd) (b : Bool) :
    (putcPixel4 l b).x = l.x ∧ (putcPixel4 l b).y = l.y ∧
    (putcPixel4 l b).width = l.width ∧ (putcPixel4 l b).height = l.height ∧
    (putcPixel4 l b).stride = l.stride ∧ (putcPixel4 l b).bpp = l.bpp ∧
    (putcPixel4 l b).flags = l.flags := by
  unfold putcPixel4
  split <;> exact ⟨rfl, rfl, rfl, rfl, rfl, rfl, rfl⟩

theorem putcPixel4_data_valid (l : Lcd) (b : Bool) (hf : l.flags = 0)
    (hval : lcd_valid_pos l) :
    ∀ j, (putcPixel4 l b).data j =
      if j = l.y.toNat * l.stride + l.x.toNat * l.bpp / 8 then
        (if b then l.data (l.y.toNat * l.stride + l.x.toNat * l.bpp / 8) |||
            (if l.x.toNat % 2 = 1 then 15 else 240)
         else l.data (l.y.toNat * l.stride + l.x.toNat * l.bpp / 8) &&&
            ((if l.x.toNat % 2 = 1 then 15 else 240) ^^^ 255))
      else l.data j := by
  intro j
  unfold putcPixel4
  rw [if_pos hval]
  have hlx : lcd_x l = l.x := by
    unfold lcd_x
    rw [show l.flags.testBit 0 = false by rw [hf]; exact Nat.zero_testBit 0]
    simp
  have hly : lcd_y l = l.y := by
    unfold lcd_y
    rw [show l.flags.testBit 1 = false by rw [hf]; exact Nat.zero_testBit 1]
    simp
  dsimp only
  rw [hlx, hly]

theorem putcPixel4_data_invalid (l : Lcd) (b : Bool) (hval : ¬lcd_valid_pos l) :
    (putcPixel4 l b).data = l.data := by
  unfold putcPixel4
  rw [if_neg hval]

/-- The precise per-byte effect of the row loop of `lcd_putc_4bpp` on an
untransformed display: each in-bounds row of the current column has the
nibble selected by the x parity set or cleared according to the font bit, and
every other byte is untouched. -/
theorem putcRows4_precise (bit : Nat → Bool) :
    ∀ (k r : Nat) (l : Lcd), l.flags = 0 → 0 ≤ l.x → l.x < (l.width : Int) →
      0 < l.stride → l.x.toNat * l.bpp / 8 < l.stride →
      ((∀ i : Nat, i < k → 0 ≤ l.y + (i : Int) → l.y + (i : Int) < (l.height : Int) →
        (putcRows putcPixel4 bit k r l).data
            ((l.y + (i : Int)).toNat * l.stride + l.x.toNat * l.bpp / 8) =
          (if bit (r + i) then
            l.data ((l.y + (i : Int)).toNat * l.stride + l.x.toNat * l.bpp / 8) |||
              (if l.x.toNat % 2 = 1 then 15 else 240)
           else
            l.data ((l.y + (i : Int)).toNat * l.stride + l.x.toNat * l.bpp / 8) &&&
              ((if l.x.toNat % 2 = 1 then 15 else 240) ^^^ 255))) ∧
      (∀ j : Nat, (∀ i : Nat, i < k → 0 ≤ l.y + (i : Int) → l.y + (i : Int) < (l.height : Int) →
          j ≠ (l.y + (i : Int)).toNat * l.stride + l.x.toNat * l.bpp / 8) →
        (putcRows putcPixel4 bit k r l).data j = l.data j)) := by
  intro k
  induction k with
  | zero =>
    intro r l _ _ _ _ _
    exact ⟨fun i hi => absurd hi (by omega), fun j _ => rfl⟩
  | succ k ih =>
    intro r l hf hx0 hxW hS0 hcb
    obtain ⟨p1, p2, p3, p4, p5, p6, p7⟩ := putcPixel4_fields l (bit r)
    set lp := putcPixel4 l (bit r) with hlp
    have hpf : lp.flags = 0 := by rw [hlp, p7, hf]
    set l2 := lcd_move_cursor lp 0 1 with hl2
    have h2f : l2.flags = 0 := by rw [hl2, lcd_move_cursor_flags, hpf]
    have h2x : l2.x = l.x := by
      rw [hl2, lcd_move_cursor_x0 _ _ _ hpf, hlp, p1]
      ring
    have h2y : l2.y = l.y + 1 := by rw [hl2, lcd_move_cursor_y0 _ _ _ hpf, hlp, p2]
    have h2W : l2.width = l.width := by rw [hl2, lcd_move_cursor_width, hlp, p3]
    have h2H : l2.height = l.height := by rw [hl2, lcd_move_cursor_height, hlp, p4]
    have h2S : l2.stride = l.stride := by rw [hl2, lcd_move_cursor_stride, hlp, p5]
    have h2B : l2.bpp = l.bpp := by rw [hl2, lcd_move_cursor_bpp, hlp, p6]
    have h2D : l2.data = lp.data := by rw [hl2, lcd_move_cursor_data]
    obtain ⟨ihA, ihB⟩ := ih (r + 1) l2 h2f (by rw [h2x]; exact hx0)
      (by rw [h2x, h2W]; exact hxW) (by rw [h2S]; exact hS0)
      (by rw [h2x, h2B, h2S]; exact hcb)
    rw [h2x, h2S, h2B, h2H] at ihA ihB
    have hidx_ne : ∀ A Bv : Nat, A < Bv →
        A * l.stride + l.x.toNat * l.bpp / 8 ≠ Bv * l.stride + l.x.toNat * l.bpp / 8 := by
      intro A Bv hAB
      have h := (Nat.mul_lt_mul_right hS0).mpr hAB
      omega
    constructor
    · intro i hik hge hlt
      rw [putcRows]
      rcases Nat.eq_zero_or_pos i with hi0 | hipos
      · subst hi0
        have hval : lcd_valid_pos l := by
          refine ⟨hx0, hxW, by omega, by omega⟩
        have hidx0 : (l.y + ((0 : Nat) : Int)).toNat = l.y.toNat := by
          simp
        rw [hidx0]
        have huntouched : (putcRows putcPixel4 bit k (r + 1) l2).data
            (l.y.toNat * l.stride + l.x.toNat * l.bpp / 8) =
            l2.data (l.y.toNat * l.stride + l.x.toNat * l.bpp / 8) := by
          apply ihB
          intro i2 _ hge2 _
          rw [h2y] at hge2 ⊢
          apply hidx_ne
          omega
        rw [huntouched, h2D, hlp,
          putcPixel4_data_valid l (bit r) hf hval
            (l.y.toNat * l.stride + l.x.toNat * l.bpp / 8), if_pos rfl]
        simp
      · obtain ⟨i1, rfl⟩ : ∃ i1, i = i1 + 1 := ⟨i - 1, by omega⟩
        have he : l.y + ((i1 + 1 : Nat) : Int) = l2.y + (i1 : Int) := by
          rw [h2y]
          push_cast
          ring
        rw [he]
        have hA := ihA i1 (by omega) (by rw [← he]; exact hge) (by rw [← he]; exact hlt)
        rw [hA]
        have hdsame : l2.data ((l2.y + (i1 : Int)).toNat * l.stride + l.x.toNat * l.bpp / 8) =
            l.data ((l2.y + (i1 : Int)).toNat * l.stride + l.x.toNat * l.bpp / 8) := by
          rw [h2D, hlp]
          by_cases hval : lcd_valid_pos l
          · rw [putcPixel4_data_valid l (bit r) hf hval, if_neg]
            apply (hidx_ne _ _ _).symm
            have hy0 : 0 ≤ l.y := hval.2.2.1
            rw [h2y]
            omega
          · rw [putcPixel4_data_invalid l (bit r) hval]
        rw [hdsame]
        have hr : r + (i1 + 1) = r + 1 + i1 := by omega
        rw [hr]
    · intro j hj
      rw [putcRows]
      have htail : (putcRows putcPixel4 bit k (r + 1) l2).data j = l2.data j := by
        apply ihB
        intro i2 hik2 hge2 hlt2
        have he : l2.y + (i2 : Int) = l.y + ((i2 + 1 : Nat) : Int) := by
          rw [h2y]
          push_cast
          ring
        rw [he] at hge2 hlt2 ⊢
        exact hj (i2 + 1) (by omega) hge2 hlt2
      rw [htail, h2D, hlp]
      by_cases hval : lcd_valid_pos l
      · rw [putcPixel4_data_valid l (bit r) hf hval, if_neg]
        have hy0 : 0 ≤ l.y := hval.2.2.1
        have hyH : l.y < (l.height : Int) := hval.2.2.2
        have h0 := hj 0 (by omega) (by simpa using hy0) (by simpa using hyH)
        simpa using h0
      · rw [putcPixel4_data_invalid l (bit r) hval]

/-- The effect of one glyph column on the pixel bytes of a 128×64 4-bpp
display with the cursor at (t, 0). -/
theorem col4_data (bitf : Nat → Bool) (l : Lcd) (t : Nat)
    (hf : l.flags = 0) (hW : l.width = 128) (hH : l.height = 64) (hS : l.stride = 64)
    (hB : l.bpp = 4) (hy : l.y = 0) (hx : l.x = (t : Int)) (ht : t < 128) :
    (∀ i : Nat, i < 8 →
      (putcRows putcPixel4 bitf 8 0 l).data (i * 64 + t / 2) =
        (if bitf i then l.data (i * 64 + t / 2) ||| (if t % 2 = 1 then 15 else 240)
         else l.data (i * 64 + t / 2) &&& ((if t % 2 = 1 then 15 else 240) ^^^ 255))) ∧
    (∀ j : Nat, (∀ i : Nat, i < 8 → j ≠ i * 64 + t / 2) →
      (putcRows putcPixel4 bitf 8 0 l).data j = l.data j) := by
  have hxt : l.x.toNat = t := by rw [hx]; exact Int.toNat_natCast t
  obtain ⟨hA, hB2⟩ := putcRows4_precise bitf 8 0 l hf (by rw [hx]; positivity)
    (by rw [hx, hW]; exact_mod_cast ht) (by rw [hS]; norm_num)
    (by rw [hxt, hB, hS]; omega)
  have hidx : ∀ i : Nat, (l.y + (i : Int)).toNat * l.stride + l.x.toNat * l.bpp / 8 =
      i * 64 + t / 2 := by
    intro i
    rw [hy, hS, hxt, hB]
    simp only [zero_add, Int.toNat_natCast]
    omega
  constructor
  · intro i hi
    have h := hA i hi (by rw [hy]; positivity) (by rw [hy, hH]; omega)
    rw [hidx i, hxt] at h
    simpa using h
  · intro j hj
    apply hB2
    intro i hi _ _
    rw [hidx i]
    exact hj i hi

/-- The cursor and field bookkeeping of one glyph column (row loop plus the
two cursor moves) on a 128×64 4-bpp display. -/
theorem colStep4_state (bitf : Nat → Bool) (l : Lcd)
    (hf : l.flags = 0) (hW : l.width = 128) (hH : l.height = 64) (hS : l.stride = 64)
    (hB : l.bpp = 4) :
    (lcd_move_cursor (lcd_move_cursor (putcRows putcPixel4 bitf 8 0 l) 0 (-(8 : Int))) 1
        0).flags = 0 ∧
    (lcd_move_cursor (lcd_move_cursor (putcRows putcPixel4 bitf 8 0 l) 0 (-(8 : Int))) 1
        0).width = 128 ∧
    (lcd_move_cursor (lcd_move_cursor (putcRows putcPixel4 bitf 8 0 l) 0 (-(8 : Int))) 1
        0).height = 64 ∧
    (lcd_move_cursor (lcd_move_cursor (putcRows putcPixel4 bitf 8 0 l) 0 (-(8 : Int))) 1
        0).stride = 64 ∧
    (lcd_move_cursor (lcd_move_cursor (putcRows putcPixel4 bitf 8 0 l) 0 (-(8 : Int))) 1
        0).bpp = 4 ∧
    (lcd_move_cursor (lcd_move_cursor (putcRows putcPixel4 bitf 8 0 l) 0 (-(8 : Int))) 1
        0).x = l.x + 1 ∧
    (lcd_move_cursor (lcd_move_cursor (putcRows putcPixel4 bitf 8 0 l) 0 (-(8 : Int))) 1
        0).y = l.y ∧
    (lcd_move_cursor (lcd_move_cursor (putcRows putcPixel4 bitf 8 0 l) 0 (-(8 : Int))) 1
        0).data = (putcRows putcPixel4 bitf 8 0 l).data := by
  have P4 : PixOk putcPixel4 128 64 64 4 := pixOk4 128 64 64 (by norm_num)
  obtain ⟨r1, r2, r3, r4, r5, r6, r7, r8⟩ :=
    putcRows_state putcPixel4 128 64 64 4 P4 bitf 8 0
      { l with width := l.width, height := l.height } (by exact hf)
  have hr1 : (putcRows putcPixel4 bitf 8 0 l).x = l.x := r1
  have hr2 : (putcRows putcPixel4 bitf 8 0 l).y = l.y + 8 := r2
  have hr3 : (putcRows putcPixel4 bitf 8 0 l).width = l.width := r3
  have hr4 : (putcRows putcPixel4 bitf 8 0 l).height = l.height := r4
  have hr5 : (putcRows putcPixel4 bitf 8 0 l).stride = l.stride := r5
  have hr6 : (putcRows putcPixel4 bitf 8 0 l).bpp = l.bpp := r6
  have hr7 : (putcRows putcPixel4 bitf 8 0 l).flags = 0 := r7
  set m1 := lcd_move_cursor (putcRows putcPixel4 bitf 8 0 l) 0 (-(8 : Int)) with hm1
  have hm1f : m1.flags = 0 := by rw [hm1, lcd_move_cursor_flags, hr7]
  refine ⟨?_, ?_, ?_, ?_, ?_, ?_, ?_, ?_⟩
  · rw [lcd_move_cursor_flags, hm1f]
  · rw [lcd_move_cursor_width, hm1, lcd_move_cursor_width, hr3, hW]
  · rw [lcd_move_cursor_height, hm1, lcd_move_cursor_height, hr4, hH]
  · rw [lcd_move_cursor_stride, hm1, lcd_move_cursor_stride, hr5, hS]
  · rw [lcd_move_cursor_bpp, hm1, lcd_move_cursor_bpp, hr6, hB]
  · rw [lcd_move_cursor_x0 _ _ _ hm1f, hm1, lcd_move_cursor_x0 _ _ _ hr7, hr1]
    ring
  · rw [lcd_move_cursor_y0 _ _ _ hm1f, hm1, lcd_move_cursor_y0 _ _ _ hr7, hr2]
    ring
  · rw [lcd_move_cursor_data, hm1, lcd_move_cursor_data]

/-- The full effect of drawing character 65 at cursor (0, 0) on the default
all-zero 128×64 4-bpp OLED: the cursor advances to (6, 0), and a byte is
nonzero afterwards exactly when it is one of the three glyph bytes of an
in-glyph row whose two pixels include a set font-column bit. -/
theorem putc4_scenario (font : Nat → Nat) :
    (lcd_putc_4bpp font baseLcd 65).x = 6 ∧ (lcd_putc_4bpp font baseLcd 65).y = 0 ∧
    ∀ j, (lcd_putc_4bpp font baseLcd 65).data j ≠ 0 ↔
      (j % 64 < 3 ∧ j / 64 < 8 ∧
        ((font (390 + 2 * (j % 64))).testBit (j / 64) ∨
         (font (390 + 2 * (j % 64) + 1)).testBit (j / 64))) := by
  have hput : lcd_putc_4bpp font baseLcd 65 =
      putcCols putcPixel4 (fun fi r => (font fi).testBit r) 8 6 390 baseLcd := rfl
  rw [hput]
  set cb : Nat → Nat → Bool := fun fi r => (font fi).testBit r with hcbdef
  set s1 := lcd_move_cursor (lcd_move_cursor
    (putcRows putcPixel4 (cb 390) 8 0 baseLcd) 0 (-(8 : Int))) 1 0 with hs1
  set s2 := lcd_move_cursor (lcd_move_cursor
    (putcRows putcPixel4 (cb 391) 8 0 s1) 0 (-(8 : Int))) 1 0 with hs2
  set s3 := lcd_move_cursor (lcd_move_cursor
    (putcRows putcPixel4 (cb 392) 8 0 s2) 0 (-(8 : Int))) 1 0 with hs3
  set s4 := lcd_move_cursor (lcd_move_cursor
    (putcRows putcPixel4 (cb 393) 8 0 s3) 0 (-(8 : Int))) 1 0 with hs4
  set s5 := lcd_move_cursor (lcd_move_cursor
    (putcRows putcPixel4 (cb 394) 8 0 s4) 0 (-(8 : Int))) 1 0 with hs5
  set s6 := lcd_move_cursor (lcd_move_cursor
    (putcRows putcPixel4 (cb 395) 8 0 s5) 0 (-(8 : Int))) 1 0 with hs6
  have hchain : putcCols putcPixel4 cb 8 6 390 baseLcd = s6 := rfl
  rw [hchain]
  obtain ⟨f1, w1, hh1, g1, b1, x1, y1, d1⟩ := colStep4_state (cb 390) baseLcd rfl rfl rfl rfl rfl
  have hx1 : s1.x = ((1 : Nat) : Int) := by rw [x1]; rfl
  have hy1 : s1.y = 0 := by rw [y1]; rfl
  obtain ⟨f2, w2, hh2, g2, b2, x2, y2, d2⟩ := colStep4_state (cb 391) s1 f1 w1 hh1 g1 b1
  have hx2 : s2.x = ((2 : Nat) : Int) := by rw [x2, hx1]; rfl
  have hy2 : s2.y = 0 := by rw [y2, hy1]
  obtain ⟨f3, w3, hh3, g3, b3, x3, y3, d3⟩ := colStep4_state (cb 392) s2 f2 w2 hh2 g2 b2
  have hx3 : s3.x = ((3 : Nat) : Int) := by rw [x3, hx2]; rfl
  have hy3 : s3.y = 0 := by rw [y3, hy2]
  obtain ⟨f4, w4, hh4, g4, b4, x4, y4, d4⟩ := colStep4_state (cb 393) s3 f3 w3 hh3 g3 b3
  have hx4 : s4.x = ((4 : Nat) : Int) := by rw [x4, hx3]; rfl
  have hy4 : s4.y = 0 := by rw [y4, hy3]
  obtain ⟨f5, w5, hh5, g5, b5, x5, y5, d5⟩ := colStep4_state (cb 394) s4 f4 w4 hh4 g4 b4
  have hx5 : s5.x = ((5 : Nat) : Int) := by rw [x5, hx4]; rfl
  have hy5 : s5.y = 0 := by rw [y5, hy4]
  obtain ⟨f6, w6, hh6, g6, b6, x6, y6, d6⟩ := colStep4_state (cb 395) s5 f5 w5 hh5 g5 b5
  have hx6 : s6.x = 6 := by rw [x6, hx5]; rfl
  have hy6 : s6.y = 0 := by rw [y6, hy5]
  obtain ⟨hd1a, hd1b⟩ := col4_data (cb 390) baseLcd 0 rfl rfl rfl rfl rfl rfl rfl (by norm_num)
  obtain ⟨hd2a, hd2b⟩ := col4_data (cb 391) s1 1 f1 w1 hh1 g1 b1 hy1 hx1 (by norm_num)
  obtain ⟨hd3a, hd3b⟩ := col4_data (cb 392) s2 2 f2 w2 hh2 g2 b2 hy2 hx2 (by norm_num)
  obtain ⟨hd4a, hd4b⟩ := col4_data (cb 393) s3 3 f3 w3 hh3 g3 b3 hy3 hx3 (by norm_num)
  obtain ⟨hd5a, hd5b⟩ := col4_data (cb 394) s4 4 f4 w4 hh4 g4 b4 hy4 hx4 (by norm_num)
  obtain ⟨hd6a, hd6b⟩ := col4_data (cb 395) s5 5 f5 w5 hh5 g5 b5 hy5 hx5 (by norm_num)
  rw [← d1] at hd1a hd1b
  rw [← d2] at hd2a hd2b
  rw [← d3] at hd3a hd3b
  rw [← d4] at hd4a hd4b
  rw [← d5] at hd5a hd5b
  rw [← d6] at hd6a hd6b
  simp only [show (0 : Nat) / 2 = 0 from rfl, show (1 : Nat) / 2 = 0 from rfl,
    show (2 : Nat) / 2 = 1 from rfl, show (3 : Nat) / 2 = 1 from rfl,
    show (4 : Nat) / 2 = 2 from rfl, show (5 : Nat) / 2 = 2 from rfl,
    show (0 : Nat) % 2 = 0 from rfl, show (1 : Nat) % 2 = 1 from rfl,
    show (2 : Nat) % 2 = 0 from rfl, show (3 : Nat) % 2 = 1 from rfl,
    show (4 : Nat) % 2 = 0 from rfl, show (5 : Nat) % 2 = 1 from rfl,
    show ((1 : Nat) = 1) = True by simp, show ((0 : Nat) = 1) = False by simp,
    if_true, if_false, Nat.add_zero,
    show ((240 : Nat) ^^^ 255) = 15 from rfl, show ((15 : Nat) ^^^ 255) = 240 from rfl]
    at hd1a hd1b hd2a hd2b hd3a hd3b hd4a hd4b hd5a hd5b hd6a hd6b
  have hb0 : ∀ m : Nat, baseLcd.data m = 0 := fun _ => rfl
  refine ⟨hx6, hy6, ?_⟩
  intro j
  by_cases hcase : j % 64 < 3 ∧ j / 64 < 8
  · obtain ⟨hk3, hy8⟩ := hcase
    have hk : j % 64 = 0 ∨ j % 64 = 1 ∨ j % 64 = 2 := by omega
    rcases hk with hk | hk | hk
    · obtain ⟨yy, hyy8, rfl⟩ : ∃ yy, yy < 8 ∧ j = yy * 64 := ⟨j / 64, hy8, by omega⟩
      have hm : yy * 64 % 64 = 0 := by omega
      have hd : yy * 64 / 64 = yy := by omega
      rw [hm, hd]
      have e6 : s6.data (yy * 64) = s2.data (yy * 64) := by
        rw [hd6b _ (by intro i _; omega), hd5b _ (by intro i _; omega),
          hd4b _ (by intro i _; omega), hd3b _ (by intro i _; omega)]
      have e2 := hd2a yy hyy8
      have e1 := hd1a yy hyy8
      rw [hb0] at e1
      have hr1 : (font (390 + 2 * 0)).testBit yy = cb 390 yy := by rw [hcbdef]
      have hr2 : (font (390 + 2 * 0 + 1)).testBit yy = cb 391 yy := by rw [hcbdef]
      rw [e6, e2, e1, hr1, hr2]
      cases hcb1 : cb 390 yy <;> cases hcb2 : cb 391 yy <;> simp [hyy8]
    · obtain ⟨yy, hyy8, rfl⟩ : ∃ yy, yy < 8 ∧ j = yy * 64 + 1 := ⟨j / 64, hy8, by omega⟩
      have hm : (yy * 64 + 1) % 64 = 1 := by omega
      have hd : (yy * 64 + 1) / 64 = yy := by omega
      rw [hm, hd]
      have e6 : s6.data (yy * 64 + 1) = s4.data (yy * 64 + 1) := by
        rw [hd6b _ (by intro i _; omega), hd5b _ (by intro i _; omega)]
      have e2 : s2.data (yy * 64 + 1) = 0 := by
        rw [hd2b _ (by intro i _; omega), hd1b _ (by intro i _; omega), hb0]
      have e4 := hd4a yy hyy8
      have e3 := hd3a yy hyy8
      rw [e2] at e3
      have hr1 : (font (390 + 2 * 1)).testBit yy = cb 392 yy := by rw [hcbdef]
      have hr2 : (font (390 + 2 * 1 + 1)).testBit yy = cb 393 yy := by rw [hcbdef]
      rw [e6, e4, e3, hr1, hr2]
      cases hcb1 : cb 392 yy <;> cases hcb2 : cb 393 yy <;> simp [hyy8]
    · obtain ⟨yy, hyy8, rfl⟩ : ∃ yy, yy < 8 ∧ j = yy * 64 + 2 := ⟨j / 64, hy8, by omega⟩
      have hm : (yy * 64 + 2) % 64 = 2 := by omega
      have hd : (yy * 64 + 2) / 64 = yy := by omega
      rw [hm, hd]
      have e4 : s4.data (yy * 64 + 2) = 0 := by
        rw [hd4b _ (by intro i _; omega), hd3b _ (by intro i _; omega),
          hd2b _ (by intro i _; omega), hd1b _ (by intro i _; omega), hb0]
      have e6 := hd6a yy hyy8
      have e5 := hd5a yy hyy8
      rw [e4] at e5
      have hr1 : (font (390 + 2 * 2)).testBit yy = cb 394 yy := by rw [hcbdef]
      have hr2 : (font (390 + 2 * 2 + 1)).testBit yy = cb 395 yy := by rw [hcbdef]
      rw [e6, e5, hr1, hr2]
      cases hcb1 : cb 394 yy <;> cases hcb2 : cb 395 yy <;> simp [hyy8]
  · have e0 : s6.data j = 0 := by
      rw [hd6b _ (by intro i hi; omega), hd5b _ (by intro i hi; omega),
        hd4b _ (by intro i hi; omega), hd3b _ (by intro i hi; omega),
        hd2b _ (by intro i hi; omega), hd1b _ (by intro i hi; omega), hb0]
    rw [e0]
    simp only [ne_eq, not_true_eq_false, false_iff]
    tauto

/-- C6: drawing one glyph at 4 bpp writes only buffer bytes of valid rows
inside the valid column span (out-of-range positions are skipped), yet every
cursor movement is still performed, so the net cursor advance is one font
width in x and zero in y for clipped and unclipped glyphs alike; and on the
128×64 4-bpp display, drawing character 65 at cursor (0, 0) over an
all-background buffer changes exactly the bytes corresponding to the
font-column bits of the glyph and advances the cursor to (6, 0). -/
theorem c6_putc4_validity_and_cursor_advance :
    (∀ (font : Nat → Nat) (lcd : Lcd) (c : Nat) (j : Nat), lcd.flags = 0 → lcd.bpp = 4 →
      2 ∣ lcd.width → (lcd_putc_4bpp font lcd c).data j ≠ lcd.data j →
      ∃ rr : Int, lcd.y ≤ rr ∧ rr < lcd.y + ((lcd_font_height lcd : Nat) : Int) ∧ 0 ≤ rr ∧
        rr < (lcd.height : Int) ∧ lcd.stride * rr.toNat ≤ j ∧
        j < lcd.stride * rr.toNat + lcd.width * lcd.bpp / 8) ∧
    (∀ (font : Nat → Nat) (lcd : Lcd) (c : Nat), lcd.flags = 0 →
      (lcd_putc_4bpp font lcd c).x = lcd.x + ((lcd_font_width lcd : Nat) : Int) ∧
      (lcd_putc_4bpp font lcd c).y = lcd.y) ∧
    (∀ font : Nat → Nat,
      (lcd_putc_4bpp font baseLcd 65).x = 6 ∧ (lcd_putc_4bpp font baseLcd 65).y = 0 ∧
      ∀ j, (lcd_putc_4bpp font baseLcd 65).data j ≠ 0 ↔
        (j % 64 < 3 ∧ j / 64 < 8 ∧
          ((font (390 + 2 * (j % 64))).testBit (j / 64) ∨
           (font (390 + 2 * (j % 64) + 1)).testBit (j / 64)))) := by
  refine ⟨?_, ?_, fun font => putc4_scenario font⟩
  · intro font lcd c j hf hB4 hW2 hch
    have P : PixOk putcPixel4 lcd.width lcd.height lcd.stride lcd.bpp := by
      rw [hB4]
      exact pixOk4 lcd.width lcd.height lcd.stride hW2
    unfold lcd_putc_4bpp at hch
    exact putcCols_data putcPixel4 lcd.width lcd.height lcd.stride lcd.bpp P _
      (lcd_font_height lcd) (lcd_font_width lcd) (c * lcd_font_width lcd) lcd j hf
      rfl rfl rfl rfl hch
  · intro font lcd c hf
    have P : PixOk putcPixel4 0 0 0 4 := pixOk4 0 0 0 (by norm_num)
    obtain ⟨h1, h2, _, _, _, _, _, _⟩ :=
      putcCols_state putcPixel4 0 0 0 4 P _ (lcd_font_height lcd) (lcd_font_width lcd)
        (c * lcd_font_width lcd) lcd hf
    exact ⟨h1, h2⟩

/-- C6 witness: the statement evaluated with the all-zero font on the default
OLED: containment holds, and the cursor moves from (0, 0) to (6, 0). -/
theorem c6_witness :
    baseLcd.flags = 0 ∧ baseLcd.bpp = 4 ∧ 2 ∣ baseLcd.width ∧
    ((lcd_putc_4bpp font0 baseLcd 65).x = baseLcd.x + ((lcd_font_width baseLcd : Nat) : Int) ∧
     (lcd_putc_4bpp font0 baseLcd 65).y = baseLcd.y) ∧
    ((lcd_putc_4bpp font0 baseLcd 65).x = 6 ∧ (lcd_putc_4bpp font0 baseLcd 65).y = 0) := by
  refine ⟨rfl, rfl, by decide,
    c6_putc4_validity_and_cursor_advance.2.1 font0 baseLcd 65 rfl,
    (c6_putc4_validity_and_cursor_advance.2.2 font0).1,
    (c6_putc4_validity_and_cursor_advance.2.2 font0).2.1⟩

end RecoveryUi
